import Mathlib

/-!
Verification of the bibliography-to-HTML generator (`scripts/bib_to_html.py`).

Python `str` values are modeled as `List Char` (`Str` below); the regex-based
passes of the source are modeled as explicit left-to-right scanners with the
same matching semantics.  All definitions are executable (structural or
fuel-bounded recursion) so that concrete inputs evaluate in the kernel.
-/

set_option maxRecDepth 20000

namespace BibHtml

/-- Python strings, modeled as lists of Unicode characters. -/
abbrev Str := List Char

/-- Shorthand: the character list of a Lean string literal. -/
def cs (s : String) : Str := s.data

/-- ASCII apostrophe. -/
def apos : Char := Char.ofNat 39

/-- ASCII backtick. -/
def btick : Char := Char.ofNat 96

/-- Python whitespace test (`\s` of `re`, and `str.strip()` default set),
restricted to the ASCII whitespace characters space, tab, newline, carriage
return, vertical tab and form feed, which are the ones that occur here. -/
def isPySpace (c : Char) : Bool :=
  c = ' ' || c = '\t' || c = '\n' || c = '\r' || c = Char.ofNat 11 || c = Char.ofNat 12

/-- Strip characters satisfying `p` from both ends of a string. -/
def pyStripWhile (p : Char → Bool) (s : Str) : Str :=
  ((s.dropWhile p).reverse.dropWhile p).reverse

/-- Python `str.strip()` with no argument: strip whitespace at both ends. -/
def pyStrip (s : Str) : Str := pyStripWhile isPySpace s

/-- Python `str.strip(chars)`: strip any character of `chars` at both ends. -/
def pyStripChars (chars : Str) (s : Str) : Str :=
  pyStripWhile (fun c => chars.contains c) s

/-- Fuel-bounded worker for `replaceAll`; the fuel is always at least the
length of the remaining string, so the `0, s` equation is never reached. -/
def replaceAllGo (pat repl : Str) : Nat → Str → Str
  | _, [] => []
  | 0, s => s
  | fuel+1, c :: rest =>
    if !pat.isEmpty && pat.isPrefixOf (c :: rest) then
      repl ++ replaceAllGo pat repl fuel ((c :: rest).drop pat.length)
    else
      c :: replaceAllGo pat repl fuel rest

/-- Python `str.replace(pat, repl)` for a non-empty pattern: leftmost,
non-overlapping replacement of every occurrence.  (`re.sub` with a literal
pattern, as used for the dash/quote digraphs, has the same semantics.) -/
def replaceAll (pat repl s : Str) : Str := replaceAllGo pat repl s.length s

/-- Python `pat in s`: `s` contains `pat` as a contiguous substring. -/
def hasSubstr (pat : Str) : Str → Bool
  | [] => pat.isEmpty
  | c :: rest => pat.isPrefixOf (c :: rest) || hasSubstr pat rest

/-- The `_SPECIAL_MACROS` table, in Python dict insertion order.  Note that
the two-character entries `\o`, `\O`, `\l`, `\L` come after the longer
entries of which they are prefixes (`\oe`, `\OE`). -/
def SPECIAL_MACROS : List (Str × Str) :=
  [ (['\\', 's', 's'], ['ß']), (['\\', 'S', 'S'], ['ẞ']),
    (['\\', 'a', 'e'], ['æ']), (['\\', 'A', 'E'], ['Æ']),
    (['\\', 'o', 'e'], ['œ']), (['\\', 'O', 'E'], ['Œ']),
    (['\\', 'a', 'a'], ['å']), (['\\', 'A', 'A'], ['Å']),
    (['\\', 'o'], ['ø']),  (['\\', 'O'], ['Ø']),
    (['\\', 'l'], ['ł']),  (['\\', 'L'], ['Ł']) ]

/-- The loop `for macro, uni in _SPECIAL_MACROS.items(): s = s.replace(...)`. -/
def applyMacros (s : Str) : Str :=
  SPECIAL_MACROS.foldl (fun acc p => replaceAll p.1 p.2 acc) s

/-- The `_ACCENT_COMBINING` dict: accent code to combining mark. -/
def ACCENT_COMBINING (c : Char) : Option Char :=
  if c = '"' then some (Char.ofNat 0x308)
  else if c = apos then some (Char.ofNat 0x301)
  else if c = btick then some (Char.ofNat 0x300)
  else if c = '^' then some (Char.ofNat 0x302)
  else if c = '~' then some (Char.ofNat 0x303)
  else if c = 'c' then some (Char.ofNat 0x327)
  else if c = 'k' then some (Char.ofNat 0x328)
  else if c = 'H' then some (Char.ofNat 0x30B)
  else if c = 'r' then some (Char.ofNat 0x30A)
  else if c = '=' then some (Char.ofNat 0x304)
  else if c = '.' then some (Char.ofNat 0x307)
  else if c = 'u' then some (Char.ofNat 0x306)
  else if c = 'v' then some (Char.ofNat 0x30C)
  else if c = 'd' then some (Char.ofNat 0x323)
  else if c = 'b' then some (Char.ofNat 0x331)
  else none

/-- The character class of the two accent regexes, in source order:
`["'` followed by backtick `\^~ckHr=\.uvdb]`. -/
def ACCENT_CLASS : Str :=
  ['"', apos, btick, '^', '~', 'c', 'k', 'H', 'r', '=', '.', 'u', 'v', 'd', 'b']

def isAccentCode (c : Char) : Bool := ACCENT_CLASS.contains c

/-- The `_accent_braced` replacement callback: base letter followed by the
combining mark when the dict has one (`base + (combining or '')`). -/
def accentRepl (a l : Char) : Str := l :: (ACCENT_COMBINING a).toList

/-- The ASCII letters `[A-Za-z]` of the accent regexes. -/
def asciiLetters : Str := cs "ABCDEFGHIJKLMNOPQRSTUVWXYZabcdefghijklmnopqrstuvwxyz"

/-- `re.sub` scan for the braced accent pattern `\\(class)\{([A-Za-z])\}`:
at each position, replace a match and continue after it, otherwise advance
one character. -/
def subBraced : Str → Str
  | '\\' :: a :: '{' :: l :: '}' :: rest =>
    if isAccentCode a && l.isAlpha then
      accentRepl a l ++ subBraced rest
    else
      '\\' :: subBraced (a :: '{' :: l :: '}' :: rest)
  | c :: rest => c :: subBraced rest
  | [] => []

/-- `re.sub` scan for the unbraced accent pattern `\\(class)([A-Za-z])`. -/
def subUnbraced : Str → Str
  | '\\' :: a :: l :: rest =>
    if isAccentCode a && l.isAlpha then
      accentRepl a l ++ subUnbraced rest
    else
      '\\' :: subUnbraced (a :: l :: rest)
  | c :: rest => c :: subUnbraced rest
  | [] => []

/-- `s.replace('{', '').replace('}', '')`. -/
def stripBraces (s : Str) : Str := replaceAll ['}'] [] (replaceAll ['{'] [] s)

/-- The `_DASH_QUOTES` table: em dash, en dash, left and right double
quotation marks, in source order (`---` before `--`). -/
def DASH_QUOTES : List (Str × Str) :=
  [ (['-', '-', '-'], [Char.ofNat 0x2014]),
    (['-', '-'], [Char.ofNat 0x2013]),
    ([btick, btick], [Char.ofNat 0x201C]),
    ([apos, apos], [Char.ofNat 0x201D]) ]

def applyDashQuotes (s : Str) : Str :=
  DASH_QUOTES.foldl (fun acc p => replaceAll p.1 p.2 acc) s

/-- Canonical composition pairs `(base, combining mark) ↦ precomposed` of the
Unicode Character Database, for the fifteen combining marks of
`_ACCENT_COMBINING` paired with the ASCII letters. -/
def NFC_TABLE : List ((Char × Char) × Char) :=
  [ ((Char.ofNat 0x41, Char.ofNat 0x308), Char.ofNat 0x00C4),
    ((Char.ofNat 0x45, Char.ofNat 0x308), Char.ofNat 0x00CB),
    ((Char.ofNat 0x48, Char.ofNat 0x308), Char.ofNat 0x1E26),
    ((Char.ofNat 0x49, Char.ofNat 0x308), Char.ofNat 0x00CF),
    ((Char.ofNat 0x4F, Char.ofNat 0x308), Char.ofNat 0x00D6),
    ((Char.ofNat 0x55, Char.ofNat 0x308), Char.ofNat 0x00DC),
    ((Char.ofNat 0x57, Char.ofNat 0x308), Char.ofNat 0x1E84),
    ((Char.ofNat 0x58, Char.ofNat 0x308), Char.ofNat 0x1E8C),
    ((Char.ofNat 0x59, Char.ofNat 0x308), Char.ofNat 0x0178),
    ((Char.ofNat 0x61, Char.ofNat 0x308), Char.ofNat 0x00E4),
    ((Char.ofNat 0x65, Char.ofNat 0x308), Char.ofNat 0x00EB),
    ((Char.ofNat 0x68, Char.ofNat 0x308), Char.ofNat 0x1E27),
    ((Char.ofNat 0x69, Char.ofNat 0x308), Char.ofNat 0x00EF),
    ((Char.ofNat 0x6F, Char.ofNat 0x308), Char.ofNat 0x00F6),
    ((Char.ofNat 0x74, Char.ofNat 0x308), Char.ofNat 0x1E97),
    ((Char.ofNat 0x75, Char.ofNat 0x308), Char.ofNat 0x00FC),
    ((Char.ofNat 0x77, Char.ofNat 0x308), Char.ofNat 0x1E85),
    ((Char.ofNat 0x78, Char.ofNat 0x308), Char.ofNat 0x1E8D),
    ((Char.ofNat 0x79, Char.ofNat 0x308), Char.ofNat 0x00FF),
    ((Char.ofNat 0x41, Char.ofNat 0x301), Char.ofNat 0x00C1),
    ((Char.ofNat 0x43, Char.ofNat 0x301), Char.ofNat 0x0106),
    ((Char.ofNat 0x45, Char.ofNat 0x301), Char.ofNat 0x00C9),
    ((Char.ofNat 0x47, Char.ofNat 0x301), Char.ofNat 0x01F4),
    ((Char.ofNat 0x49, Char.ofNat 0x301), Char.ofNat 0x00CD),
    ((Char.ofNat 0x4B, Char.ofNat 0x301), Char.ofNat 0x1E30),
    ((Char.ofNat 0x4C, Char.ofNat 0x301), Char.ofNat 0x0139),
    ((Char.ofNat 0x4D, Char.ofNat 0x301), Char.ofNat 0x1E3E),
    ((Char.ofNat 0x4E, Char.ofNat 0x301), Char.ofNat 0x0143),
    ((Char.ofNat 0x4F, Char.ofNat 0x301), Char.ofNat 0x00D3),
    ((Char.ofNat 0x50, Char.ofNat 0x301), Char.ofNat 0x1E54),
    ((Char.ofNat 0x52, Char.ofNat 0x301), Char.ofNat 0x0154),
    ((Char.ofNat 0x53, Char.ofNat 0x301), Char.ofNat 0x015A),
    ((Char.ofNat 0x55, Char.ofNat 0x301), Char.ofNat 0x00DA),
    ((Char.ofNat 0x57, Char.ofNat 0x301), Char.ofNat 0x1E82),
    ((Char.ofNat 0x59, Char.ofNat 0x301), Char.ofNat 0x00DD),
    ((Char.ofNat 0x5A, Char.ofNat 0x301), Char.ofNat 0x0179),
    ((Char.ofNat 0x61, Char.ofNat 0x301), Char.ofNat 0x00E1),
    ((Char.ofNat 0x63, Char.ofNat 0x301), Char.ofNat 0x0107),
    ((Char.ofNat 0x65, Char.ofNat 0x301), Char.ofNat 0x00E9),
    ((Char.ofNat 0x67, Char.ofNat 0x301), Char.ofNat 0x01F5),
    ((Char.ofNat 0x69, Char.ofNat 0x301), Char.ofNat 0x00ED),
    ((Char.ofNat 0x6B, Char.ofNat 0x301), Char.ofNat 0x1E31),
    ((Char.ofNat 0x6C, Char.ofNat 0x301), Char.ofNat 0x013A),
    ((Char.ofNat 0x6D, Char.ofNat 0x301), Char.ofNat 0x1E3F),
    ((Char.ofNat 0x6E, Char.ofNat 0x301), Char.ofNat 0x0144),
    ((Char.ofNat 0x6F, Char.ofNat 0x301), Char.ofNat 0x00F3),
    ((Char.ofNat 0x70, Char.ofNat 0x301), Char.ofNat 0x1E55),
    ((Char.ofNat 0x72, Char.ofNat 0x301), Char.ofNat 0x0155),
    ((Char.ofNat 0x73, Char.ofNat 0x301), Char.ofNat 0x015B),
    ((Char.ofNat 0x75, Char.ofNat 0x301), Char.ofNat 0x00FA),
    ((Char.ofNat 0x77, Char.ofNat 0x301), Char.ofNat 0x1E83),
    ((Char.ofNat 0x79, Char.ofNat 0x301), Char.ofNat 0x00FD),
    ((Char.ofNat 0x7A, Char.ofNat 0x301), Char.ofNat 0x017A),
    ((Char.ofNat 0x41, Char.ofNat 0x300), Char.ofNat 0x00C0),
    ((Char.ofNat 0x45, Char.ofNat 0x300), Char.ofNat 0x00C8),
    ((Char.ofNat 0x49, Char.ofNat 0x300), Char.ofNat 0x00CC),
    ((Char.ofNat 0x4E, Char.ofNat 0x300), Char.ofNat 0x01F8),
    ((Char.ofNat 0x4F, Char.ofNat 0x300), Char.ofNat 0x00D2),
    ((Char.ofNat 0x55, Char.ofNat 0x300), Char.ofNat 0x00D9),
    ((Char.ofNat 0x57, Char.ofNat 0x300), Char.ofNat 0x1E80),
    ((Char.ofNat 0x59, Char.ofNat 0x300), Char.ofNat 0x1EF2),
    ((Char.ofNat 0x61, Char.ofNat 0x300), Char.ofNat 0x00E0),
    ((Char.ofNat 0x65, Char.ofNat 0x300), Char.ofNat 0x00E8),
    ((Char.ofNat 0x69, Char.ofNat 0x300), Char.ofNat 0x00EC),
    ((Char.ofNat 0x6E, Char.ofNat 0x300), Char.ofNat 0x01F9),
    ((Char.ofNat 0x6F, Char.ofNat 0x300), Char.ofNat 0x00F2),
    ((Char.ofNat 0x75, Char.ofNat 0x300), Char.ofNat 0x00F9),
    ((Char.ofNat 0x77, Char.ofNat 0x300), Char.ofNat 0x1E81),
    ((Char.ofNat 0x79, Char.ofNat 0x300), Char.ofNat 0x1EF3),
    ((Char.ofNat 0x41, Char.ofNat 0x302), Char.ofNat 0x00C2),
    ((Char.ofNat 0x43, Char.ofNat 0x302), Char.ofNat 0x0108),
    ((Char.ofNat 0x45, Char.ofNat 0x302), Char.ofNat 0x00CA),
    ((Char.ofNat 0x47, Char.ofNat 0x302), Char.ofNat 0x011C),
    ((Char.ofNat 0x48, Char.ofNat 0x302), Char.ofNat 0x0124),
    ((Char.ofNat 0x49, Char.ofNat 0x302), Char.ofNat 0x00CE),
    ((Char.ofNat 0x4A, Char.ofNat 0x302), Char.ofNat 0x0134),
    ((Char.ofNat 0x4F, Char.ofNat 0x302), Char.ofNat 0x00D4),
    ((Char.ofNat 0x53, Char.ofNat 0x302), Char.ofNat 0x015C),
    ((Char.ofNat 0x55, Char.ofNat 0x302), Char.ofNat 0x00DB),
    ((Char.ofNat 0x57, Char.ofNat 0x302), Char.ofNat 0x0174),
    ((Char.ofNat 0x59, Char.ofNat 0x302), Char.ofNat 0x0176),
    ((Char.ofNat 0x5A, Char.ofNat 0x302), Char.ofNat 0x1E90),
    ((Char.ofNat 0x61, Char.ofNat 0x302), Char.ofNat 0x00E2),
    ((Char.ofNat 0x63, Char.ofNat 0x302), Char.ofNat 0x0109),
    ((Char.ofNat 0x65, Char.ofNat 0x302), Char.ofNat 0x00EA),
    ((Char.ofNat 0x67, Char.ofNat 0x302), Char.ofNat 0x011D),
    ((Char.ofNat 0x68, Char.ofNat 0x302), Char.ofNat 0x0125),
    ((Char.ofNat 0x69, Char.ofNat 0x302), Char.ofNat 0x00EE),
    ((Char.ofNat 0x6A, Char.ofNat 0x302), Char.ofNat 0x0135),
    ((Char.ofNat 0x6F, Char.ofNat 0x302), Char.ofNat 0x00F4),
    ((Char.ofNat 0x73, Char.ofNat 0x302), Char.ofNat 0x015D),
    ((Char.ofNat 0x75, Char.ofNat 0x302), Char.ofNat 0x00FB),
    ((Char.ofNat 0x77, Char.ofNat 0x302), Char.ofNat 0x0175),
    ((Char.ofNat 0x79, Char.ofNat 0x302), Char.ofNat 0x0177),
    ((Char.ofNat 0x7A, Char.ofNat 0x302), Char.ofNat 0x1E91),
    ((Char.ofNat 0x41, Char.ofNat 0x303), Char.ofNat 0x00C3),
    ((Char.ofNat 0x45, Char.ofNat 0x303), Char.ofNat 0x1EBC),
    ((Char.ofNat 0x49, Char.ofNat 0x303), Char.ofNat 0x0128),
    ((Char.ofNat 0x4E, Char.ofNat 0x303), Char.ofNat 0x00D1),
    ((Char.ofNat 0x4F, Char.ofNat 0x303), Char.ofNat 0x00D5),
    ((Char.ofNat 0x55, Char.ofNat 0x303), Char.ofNat 0x0168),
    ((Char.ofNat 0x56, Char.ofNat 0x303), Char.ofNat 0x1E7C),
    ((Char.ofNat 0x59, Char.ofNat 0x303), Char.ofNat 0x1EF8),
    ((Char.ofNat 0x61, Char.ofNat 0x303), Char.ofNat 0x00E3),
    ((Char.ofNat 0x65, Char.ofNat 0x303), Char.ofNat 0x1EBD),
    ((Char.ofNat 0x69, Char.ofNat 0x303), Char.ofNat 0x0129),
    ((Char.ofNat 0x6E, Char.ofNat 0x303), Char.ofNat 0x00F1),
    ((Char.ofNat 0x6F, Char.ofNat 0x303), Char.ofNat 0x00F5),
    ((Char.ofNat 0x75, Char.ofNat 0x303), Char.ofNat 0x0169),
    ((Char.ofNat 0x76, Char.ofNat 0x303), Char.ofNat 0x1E7D),
    ((Char.ofNat 0x79, Char.ofNat 0x303), Char.ofNat 0x1EF9),
    ((Char.ofNat 0x43, Char.ofNat 0x327), Char.ofNat 0x00C7),
    ((Char.ofNat 0x44, Char.ofNat 0x327), Char.ofNat 0x1E10),
    ((Char.ofNat 0x45, Char.ofNat 0x327), Char.ofNat 0x0228),
    ((Char.ofNat 0x47, Char.ofNat 0x327), Char.ofNat 0x0122),
    ((Char.ofNat 0x48, Char.ofNat 0x327), Char.ofNat 0x1E28),
    ((Char.ofNat 0x4B, Char.ofNat 0x327), Char.ofNat 0x0136),
    ((Char.ofNat 0x4C, Char.ofNat 0x327), Char.ofNat 0x013B),
    ((Char.ofNat 0x4E, Char.ofNat 0x327), Char.ofNat 0x0145),
    ((Char.ofNat 0x52, Char.ofNat 0x327), Char.ofNat 0x0156),
    ((Char.ofNat 0x53, Char.ofNat 0x327), Char.ofNat 0x015E),
    ((Char.ofNat 0x54, Char.ofNat 0x327), Char.ofNat 0x0162),
    ((Char.ofNat 0x63, Char.ofNat 0x327), Char.ofNat 0x00E7),
    ((Char.ofNat 0x64, Char.ofNat 0x327), Char.ofNat 0x1E11),
    ((Char.ofNat 0x65, Char.ofNat 0x327), Char.ofNat 0x0229),
    ((Char.ofNat 0x67, Char.ofNat 0x327), Char.ofNat 0x0123),
    ((Char.ofNat 0x68, Char.ofNat 0x327), Char.ofNat 0x1E29),
    ((Char.ofNat 0x6B, Char.ofNat 0x327), Char.ofNat 0x0137),
    ((Char.ofNat 0x6C, Char.ofNat 0x327), Char.ofNat 0x013C),
    ((Char.ofNat 0x6E, Char.ofNat 0x327), Char.ofNat 0x0146),
    ((Char.ofNat 0x72, Char.ofNat 0x327), Char.ofNat 0x0157),
    ((Char.ofNat 0x73, Char.ofNat 0x327), Char.ofNat 0x015F),
    ((Char.ofNat 0x74, Char.ofNat 0x327), Char.ofNat 0x0163),
    ((Char.ofNat 0x41, Char.ofNat 0x328), Char.ofNat 0x0104),
    ((Char.ofNat 0x45, Char.ofNat 0x328), Char.ofNat 0x0118),
    ((Char.ofNat 0x49, Char.ofNat 0x328), Char.ofNat 0x012E),
    ((Char.ofNat 0x4F, Char.ofNat 0x328), Char.ofNat 0x01EA),
    ((Char.ofNat 0x55, Char.ofNat 0x328), Char.ofNat 0x0172),
    ((Char.ofNat 0x61, Char.ofNat 0x328), Char.ofNat 0x0105),
    ((Char.ofNat 0x65, Char.ofNat 0x328), Char.ofNat 0x0119),
    ((Char.ofNat 0x69, Char.ofNat 0x328), Char.ofNat 0x012F),
    ((Char.ofNat 0x6F, Char.ofNat 0x328), Char.ofNat 0x01EB),
    ((Char.ofNat 0x75, Char.ofNat 0x328), Char.ofNat 0x0173),
    ((Char.ofNat 0x4F, Char.ofNat 0x30B), Char.ofNat 0x0150),
    ((Char.ofNat 0x55, Char.ofNat 0x30B), Char.ofNat 0x0170),
    ((Char.ofNat 0x6F, Char.ofNat 0x30B), Char.ofNat 0x0151),
    ((Char.ofNat 0x75, Char.ofNat 0x30B), Char.ofNat 0x0171),
    ((Char.ofNat 0x41, Char.ofNat 0x30A), Char.ofNat 0x00C5),
    ((Char.ofNat 0x55, Char.ofNat 0x30A), Char.ofNat 0x016E),
    ((Char.ofNat 0x61, Char.ofNat 0x30A), Char.ofNat 0x00E5),
    ((Char.ofNat 0x75, Char.ofNat 0x30A), Char.ofNat 0x016F),
    ((Char.ofNat 0x77, Char.ofNat 0x30A), Char.ofNat 0x1E98),
    ((Char.ofNat 0x79, Char.ofNat 0x30A), Char.ofNat 0x1E99),
    ((Char.ofNat 0x41, Char.ofNat 0x304), Char.ofNat 0x0100),
    ((Char.ofNat 0x45, Char.ofNat 0x304), Char.ofNat 0x0112),
    ((Char.ofNat 0x47, Char.ofNat 0x304), Char.ofNat 0x1E20),
    ((Char.ofNat 0x49, Char.ofNat 0x304), Char.ofNat 0x012A),
    ((Char.ofNat 0x4F, Char.ofNat 0x304), Char.ofNat 0x014C),
    ((Char.ofNat 0x55, Char.ofNat 0x304), Char.ofNat 0x016A),
    ((Char.ofNat 0x59, Char.ofNat 0x304), Char.ofNat 0x0232),
    ((Char.ofNat 0x61, Char.ofNat 0x304), Char.ofNat 0x0101),
    ((Char.ofNat 0x65, Char.ofNat 0x304), Char.ofNat 0x0113),
    ((Char.ofNat 0x67, Char.ofNat 0x304), Char.ofNat 0x1E21),
    ((Char.ofNat 0x69, Char.ofNat 0x304), Char.ofNat 0x012B),
    ((Char.ofNat 0x6F, Char.ofNat 0x304), Char.ofNat 0x014D),
    ((Char.ofNat 0x75, Char.ofNat 0x304), Char.ofNat 0x016B),
    ((Char.ofNat 0x79, Char.ofNat 0x304), Char.ofNat 0x0233),
    ((Char.ofNat 0x41, Char.ofNat 0x307), Char.ofNat 0x0226),
    ((Char.ofNat 0x42, Char.ofNat 0x307), Char.ofNat 0x1E02),
    ((Char.ofNat 0x43, Char.ofNat 0x307), Char.ofNat 0x010A),
    ((Char.ofNat 0x44, Char.ofNat 0x307), Char.ofNat 0x1E0A),
    ((Char.ofNat 0x45, Char.ofNat 0x307), Char.ofNat 0x0116),
    ((Char.ofNat 0x46, Char.ofNat 0x307), Char.ofNat 0x1E1E),
    ((Char.ofNat 0x47, Char.ofNat 0x307), Char.ofNat 0x0120),
    ((Char.ofNat 0x48, Char.ofNat 0x307), Char.ofNat 0x1E22),
    ((Char.ofNat 0x49, Char.ofNat 0x307), Char.ofNat 0x0130),
    ((Char.ofNat 0x4D, Char.ofNat 0x307), Char.ofNat 0x1E40),
    ((Char.ofNat 0x4E, Char.ofNat 0x307), Char.ofNat 0x1E44),
    ((Char.ofNat 0x4F, Char.ofNat 0x307), Char.ofNat 0x022E),
    ((Char.ofNat 0x50, Char.ofNat 0x307), Char.ofNat 0x1E56),
    ((Char.ofNat 0x52, Char.ofNat 0x307), Char.ofNat 0x1E58),
    ((Char.ofNat 0x53, Char.ofNat 0x307), Char.ofNat 0x1E60),
    ((Char.ofNat 0x54, Char.ofNat 0x307), Char.ofNat 0x1E6A),
    ((Char.ofNat 0x57, Char.ofNat 0x307), Char.ofNat 0x1E86),
    ((Char.ofNat 0x58, Char.ofNat 0x307), Char.ofNat 0x1E8A),
    ((Char.ofNat 0x59, Char.ofNat 0x307), Char.ofNat 0x1E8E),
    ((Char.ofNat 0x5A, Char.ofNat 0x307), Char.ofNat 0x017B),
    ((Char.ofNat 0x61, Char.ofNat 0x307), Char.ofNat 0x0227),
    ((Char.ofNat 0x62, Char.ofNat 0x307), Char.ofNat 0x1E03),
    ((Char.ofNat 0x63, Char.ofNat 0x307), Char.ofNat 0x010B),
    ((Char.ofNat 0x64, Char.ofNat 0x307), Char.ofNat 0x1E0B),
    ((Char.ofNat 0x65, Char.ofNat 0x307), Char.ofNat 0x0117),
    ((Char.ofNat 0x66, Char.ofNat 0x307), Char.ofNat 0x1E1F),
    ((Char.ofNat 0x67, Char.ofNat 0x307), Char.ofNat 0x0121),
    ((Char.ofNat 0x68, Char.ofNat 0x307), Char.ofNat 0x1E23),
    ((Char.ofNat 0x6D, Char.ofNat 0x307), Char.ofNat 0x1E41),
    ((Char.ofNat 0x6E, Char.ofNat 0x307), Char.ofNat 0x1E45),
    ((Char.ofNat 0x6F, Char.ofNat 0x307), Char.ofNat 0x022F),
    ((Char.ofNat 0x70, Char.ofNat 0x307), Char.ofNat 0x1E57),
    ((Char.ofNat 0x72, Char.ofNat 0x307), Char.ofNat 0x1E59),
    ((Char.ofNat 0x73, Char.ofNat 0x307), Char.ofNat 0x1E61),
    ((Char.ofNat 0x74, Char.ofNat 0x307), Char.ofNat 0x1E6B),
    ((Char.ofNat 0x77, Char.ofNat 0x307), Char.ofNat 0x1E87),
    ((Char.ofNat 0x78, Char.ofNat 0x307), Char.ofNat 0x1E8B),
    ((Char.ofNat 0x79, Char.ofNat 0x307), Char.ofNat 0x1E8F),
    ((Char.ofNat 0x7A, Char.ofNat 0x307), Char.ofNat 0x017C),
    ((Char.ofNat 0x41, Char.ofNat 0x306), Char.ofNat 0x0102),
    ((Char.ofNat 0x45, Char.ofNat 0x306), Char.ofNat 0x0114),
    ((Char.ofNat 0x47, Char.ofNat 0x306), Char.ofNat 0x011E),
    ((Char.ofNat 0x49, Char.ofNat 0x306), Char.ofNat 0x012C),
    ((Char.ofNat 0x4F, Char.ofNat 0x306), Char.ofNat 0x014E),
    ((Char.ofNat 0x55, Char.ofNat 0x306), Char.ofNat 0x016C),
    ((Char.ofNat 0x61, Char.ofNat 0x306), Char.ofNat 0x0103),
    ((Char.ofNat 0x65, Char.ofNat 0x306), Char.ofNat 0x0115),
    ((Char.ofNat 0x67, Char.ofNat 0x306), Char.ofNat 0x011F),
    ((Char.ofNat 0x69, Char.ofNat 0x306), Char.ofNat 0x012D),
    ((Char.ofNat 0x6F, Char.ofNat 0x306), Char.ofNat 0x014F),
    ((Char.ofNat 0x75, Char.ofNat 0x306), Char.ofNat 0x016D),
    ((Char.ofNat 0x41, Char.ofNat 0x30C), Char.ofNat 0x01CD),
    ((Char.ofNat 0x43, Char.ofNat 0x30C), Char.ofNat 0x010C),
    ((Char.ofNat 0x44, Char.ofNat 0x30C), Char.ofNat 0x010E),
    ((Char.ofNat 0x45, Char.ofNat 0x30C), Char.ofNat 0x011A),
    ((Char.ofNat 0x47, Char.ofNat 0x30C), Char.ofNat 0x01E6),
    ((Char.ofNat 0x48, Char.ofNat 0x30C), Char.ofNat 0x021E),
    ((Char.ofNat 0x49, Char.ofNat 0x30C), Char.ofNat 0x01CF),
    ((Char.ofNat 0x4B, Char.ofNat 0x30C), Char.ofNat 0x01E8),
    ((Char.ofNat 0x4C, Char.ofNat 0x30C), Char.ofNat 0x013D),
    ((Char.ofNat 0x4E, Char.ofNat 0x30C), Char.ofNat 0x0147),
    ((Char.ofNat 0x4F, Char.ofNat 0x30C), Char.ofNat 0x01D1),
    ((Char.ofNat 0x52, Char.ofNat 0x30C), Char.ofNat 0x0158),
    ((Char.ofNat 0x53, Char.ofNat 0x30C), Char.ofNat 0x0160),
    ((Char.ofNat 0x54, Char.ofNat 0x30C), Char.ofNat 0x0164),
    ((Char.ofNat 0x55, Char.ofNat 0x30C), Char.ofNat 0x01D3),
    ((Char.ofNat 0x5A, Char.ofNat 0x30C), Char.ofNat 0x017D),
    ((Char.ofNat 0x61, Char.ofNat 0x30C), Char.ofNat 0x01CE),
    ((Char.ofNat 0x63, Char.ofNat 0x30C), Char.ofNat 0x010D),
    ((Char.ofNat 0x64, Char.ofNat 0x30C), Char.ofNat 0x010F),
    ((Char.ofNat 0x65, Char.ofNat 0x30C), Char.ofNat 0x011B),
    ((Char.ofNat 0x67, Char.ofNat 0x30C), Char.ofNat 0x01E7),
    ((Char.ofNat 0x68, Char.ofNat 0x30C), Char.ofNat 0x021F),
    ((Char.ofNat 0x69, Char.ofNat 0x30C), Char.ofNat 0x01D0),
    ((Char.ofNat 0x6A, Char.ofNat 0x30C), Char.ofNat 0x01F0),
    ((Char.ofNat 0x6B, Char.ofNat 0x30C), Char.ofNat 0x01E9),
    ((Char.ofNat 0x6C, Char.ofNat 0x30C), Char.ofNat 0x013E),
    ((Char.ofNat 0x6E, Char.ofNat 0x30C), Char.ofNat 0x0148),
    ((Char.ofNat 0x6F, Char.ofNat 0x30C), Char.ofNat 0x01D2),
    ((Char.ofNat 0x72, Char.ofNat 0x30C), Char.ofNat 0x0159),
    ((Char.ofNat 0x73, Char.ofNat 0x30C), Char.ofNat 0x0161),
    ((Char.ofNat 0x74, Char.ofNat 0x30C), Char.ofNat 0x0165),
    ((Char.ofNat 0x75, Char.ofNat 0x30C), Char.ofNat 0x01D4),
    ((Char.ofNat 0x7A, Char.ofNat 0x30C), Char.ofNat 0x017E),
    ((Char.ofNat 0x41, Char.ofNat 0x323), Char.ofNat 0x1EA0),
    ((Char.ofNat 0x42, Char.ofNat 0x323), Char.ofNat 0x1E04),
    ((Char.ofNat 0x44, Char.ofNat 0x323), Char.ofNat 0x1E0C),
    ((Char.ofNat 0x45, Char.ofNat 0x323), Char.ofNat 0x1EB8),
    ((Char.ofNat 0x48, Char.ofNat 0x323), Char.ofNat 0x1E24),
    ((Char.ofNat 0x49, Char.ofNat 0x323), Char.ofNat 0x1ECA),
    ((Char.ofNat 0x4B, Char.ofNat 0x323), Char.ofNat 0x1E32),
    ((Char.ofNat 0x4C, Char.ofNat 0x323), Char.ofNat 0x1E36),
    ((Char.ofNat 0x4D, Char.ofNat 0x323), Char.ofNat 0x1E42),
    ((Char.ofNat 0x4E, Char.ofNat 0x323), Char.ofNat 0x1E46),
    ((Char.ofNat 0x4F, Char.ofNat 0x323), Char.ofNat 0x1ECC),
    ((Char.ofNat 0x52, Char.ofNat 0x323), Char.ofNat 0x1E5A),
    ((Char.ofNat 0x53, Char.ofNat 0x323), Char.ofNat 0x1E62),
    ((Char.ofNat 0x54, Char.ofNat 0x323), Char.ofNat 0x1E6C),
    ((Char.ofNat 0x55, Char.ofNat 0x323), Char.ofNat 0x1EE4),
    ((Char.ofNat 0x56, Char.ofNat 0x323), Char.ofNat 0x1E7E),
    ((Char.ofNat 0x57, Char.ofNat 0x323), Char.ofNat 0x1E88),
    ((Char.ofNat 0x59, Char.ofNat 0x323), Char.ofNat 0x1EF4),
    ((Char.ofNat 0x5A, Char.ofNat 0x323), Char.ofNat 0x1E92),
    ((Char.ofNat 0x61, Char.ofNat 0x323), Char.ofNat 0x1EA1),
    ((Char.ofNat 0x62, Char.ofNat 0x323), Char.ofNat 0x1E05),
    ((Char.ofNat 0x64, Char.ofNat 0x323), Char.ofNat 0x1E0D),
    ((Char.ofNat 0x65, Char.ofNat 0x323), Char.ofNat 0x1EB9),
    ((Char.ofNat 0x68, Char.ofNat 0x323), Char.ofNat 0x1E25),
    ((Char.ofNat 0x69, Char.ofNat 0x323), Char.ofNat 0x1ECB),
    ((Char.ofNat 0x6B, Char.ofNat 0x323), Char.ofNat 0x1E33),
    ((Char.ofNat 0x6C, Char.ofNat 0x323), Char.ofNat 0x1E37),
    ((Char.ofNat 0x6D, Char.ofNat 0x323), Char.ofNat 0x1E43),
    ((Char.ofNat 0x6E, Char.ofNat 0x323), Char.ofNat 0x1E47),
    ((Char.ofNat 0x6F, Char.ofNat 0x323), Char.ofNat 0x1ECD),
    ((Char.ofNat 0x72, Char.ofNat 0x323), Char.ofNat 0x1E5B),
    ((Char.ofNat 0x73, Char.ofNat 0x323), Char.ofNat 0x1E63),
    ((Char.ofNat 0x74, Char.ofNat 0x323), Char.ofNat 0x1E6D),
    ((Char.ofNat 0x75, Char.ofNat 0x323), Char.ofNat 0x1EE5),
    ((Char.ofNat 0x76, Char.ofNat 0x323), Char.ofNat 0x1E7F),
    ((Char.ofNat 0x77, Char.ofNat 0x323), Char.ofNat 0x1E89),
    ((Char.ofNat 0x79, Char.ofNat 0x323), Char.ofNat 0x1EF5),
    ((Char.ofNat 0x7A, Char.ofNat 0x323), Char.ofNat 0x1E93),
    ((Char.ofNat 0x42, Char.ofNat 0x331), Char.ofNat 0x1E06),
    ((Char.ofNat 0x44, Char.ofNat 0x331), Char.ofNat 0x1E0E),
    ((Char.ofNat 0x4B, Char.ofNat 0x331), Char.ofNat 0x1E34),
    ((Char.ofNat 0x4C, Char.ofNat 0x331), Char.ofNat 0x1E3A),
    ((Char.ofNat 0x4E, Char.ofNat 0x331), Char.ofNat 0x1E48),
    ((Char.ofNat 0x52, Char.ofNat 0x331), Char.ofNat 0x1E5E),
    ((Char.ofNat 0x54, Char.ofNat 0x331), Char.ofNat 0x1E6E),
    ((Char.ofNat 0x5A, Char.ofNat 0x331), Char.ofNat 0x1E94),
    ((Char.ofNat 0x62, Char.ofNat 0x331), Char.ofNat 0x1E07),
    ((Char.ofNat 0x64, Char.ofNat 0x331), Char.ofNat 0x1E0F),
    ((Char.ofNat 0x68, Char.ofNat 0x331), Char.ofNat 0x1E96),
    ((Char.ofNat 0x6B, Char.ofNat 0x331), Char.ofNat 0x1E35),
    ((Char.ofNat 0x6C, Char.ofNat 0x331), Char.ofNat 0x1E3B),
    ((Char.ofNat 0x6E, Char.ofNat 0x331), Char.ofNat 0x1E49),
    ((Char.ofNat 0x72, Char.ofNat 0x331), Char.ofNat 0x1E5F),
    ((Char.ofNat 0x74, Char.ofNat 0x331), Char.ofNat 0x1E6F),
    ((Char.ofNat 0x7A, Char.ofNat 0x331), Char.ofNat 0x1E95) ]

/-- Canonical composition of a base character with a following combining
mark, from `NFC_TABLE`. -/
def composePair (b m : Char) : Option Char := NFC_TABLE.lookup (b, m)

/-- Fuel-bounded canonical composition pass.  This models
`unicodedata.normalize('NFC', s)` on the outputs of this program, which are
sequences of starters each followed by at most one combining mark. -/
def nfcGo : Nat → Str → Str
  | _, [] => []
  | _, [a] => [a]
  | 0, s => s
  | fuel+1, a :: b :: rest =>
    match composePair a b with
    | some p => nfcGo fuel (p :: rest)
    | none => a :: nfcGo fuel (b :: rest)

def nfc (s : Str) : Str := nfcGo s.length s

/-- `latex_to_unicode`: special macros, braced accents, unbraced accents,
brace stripping, dash/quote digraphs, NFC normalization; empty input is
returned unchanged. -/
def latex_to_unicode (s : Str) : Str :=
  if s.isEmpty then s
  else nfc (applyDashQuotes (stripBraces (subUnbraced (subBraced (applyMacros s)))))

/-- What the NFC step makes of a base letter followed by one combining mark:
the precomposed character when the canonical composition exists, otherwise
the two characters unchanged. -/
def precomposedOr (l m : Char) : Str :=
  match composePair l m with
  | some p => [p]
  | none => [l, m]

end BibHtml

namespace BibHtml

/-! ### Lemmas about the string helpers -/

theorem replaceAllGo_of_not_hasSubstr {pat repl : Str} :
    ∀ (fuel : Nat) (s : Str), s.length ≤ fuel → hasSubstr pat s = false →
      replaceAllGo pat repl fuel s = s := by
  intro fuel
  induction fuel with
  | zero =>
    intro s hs _
    have : s = [] := List.eq_nil_of_length_eq_zero (Nat.le_zero.mp hs)
    subst this; rfl
  | succ f ih =>
    intro s hs hsub
    match s with
    | [] => rfl
    | c :: rest =>
      simp only [hasSubstr, Bool.or_eq_false_iff] at hsub
      obtain ⟨hpre, hrest⟩ := hsub
      simp only [replaceAllGo, hpre, Bool.and_false, Bool.false_eq_true, if_false]
      have : rest.length ≤ f := by simp only [List.length_cons] at hs; omega
      rw [ih rest this hrest]

theorem replaceAll_of_not_hasSubstr {pat repl s : Str} (h : hasSubstr pat s = false) :
    replaceAll pat repl s = s :=
  replaceAllGo_of_not_hasSubstr s.length s (Nat.le_refl _) h

theorem not_hasSubstr_head {h : Char} {t s : Str} (hs : ∀ x ∈ s, x ≠ h) :
    hasSubstr (h :: t) s = false := by
  induction s with
  | nil => rfl
  | cons c rest ih =>
    have hc : c ≠ h := hs c (List.mem_cons_self c rest)
    simp only [hasSubstr, Bool.or_eq_false_iff]
    constructor
    · simp [List.isPrefixOf, Ne.symm hc]
    · exact ih fun x hx => hs x (List.mem_cons_of_mem c hx)

theorem foldl_replaceAll_id :
    ∀ (tab : List (Str × Str)) (s : Str), (∀ p ∈ tab, hasSubstr p.1 s = false) →
      tab.foldl (fun acc p => replaceAll p.1 p.2 acc) s = s := by
  intro tab
  induction tab with
  | nil => intro s _; rfl
  | cons p rest ih =>
    intro s hp
    simp only [List.foldl_cons]
    rw [replaceAll_of_not_hasSubstr (hp p (List.mem_cons_self p rest))]
    exact ih s fun q hq => hp q (List.mem_cons_of_mem p hq)

theorem applyMacros_id {s : Str} (h : ∀ p ∈ SPECIAL_MACROS, hasSubstr p.1 s = false) :
    applyMacros s = s :=
  foldl_replaceAll_id SPECIAL_MACROS s h

theorem applyDashQuotes_id {s : Str} (h : ∀ p ∈ DASH_QUOTES, hasSubstr p.1 s = false) :
    applyDashQuotes s = s :=
  foldl_replaceAll_id DASH_QUOTES s h

theorem stripBraces_id {s : Str} (h1 : ∀ x ∈ s, x ≠ '{') (h2 : ∀ x ∈ s, x ≠ '}') :
    stripBraces s = s := by
  unfold stripBraces
  rw [replaceAll_of_not_hasSubstr (not_hasSubstr_head h1),
    replaceAll_of_not_hasSubstr (not_hasSubstr_head h2)]

theorem lookup_none_of_ne {b m : Char} :
    ∀ tab : List ((Char × Char) × Char), (∀ e ∈ tab, e.1 ≠ (b, m)) →
      tab.lookup (b, m) = none := by
  intro tab
  induction tab with
  | nil => intro _; rfl
  | cons e rest ih =>
    intro he
    have : ((b, m) == e.1) = false := by
      have := he e (List.mem_cons_self e rest)
      simp [beq_eq_false_iff_ne, this, Ne.symm this]
    simp only [List.lookup, this]
    exact ih fun q hq => he q (List.mem_cons_of_mem e hq)

theorem composePair_of_backslash_base (c : Char) : composePair '\\' c = none := by
  have htab : ∀ e ∈ NFC_TABLE, e.1.1 ≠ '\\' := by decide
  refine lookup_none_of_ne NFC_TABLE fun e he => ?_
  intro hcontra
  exact htab e he (by rw [hcontra])

theorem composePair_of_low_mark {b m : Char} (hm : m.toNat < 768) : composePair b m = none := by
  have htab : ∀ e ∈ NFC_TABLE, 768 ≤ e.1.2.toNat := by decide
  refine lookup_none_of_ne NFC_TABLE fun e he => ?_
  intro hcontra
  have := htab e he
  rw [hcontra] at this
  simp only at this
  omega

theorem nfc_pair (a b : Char) : nfc [a, b] = precomposedOr a b := by
  unfold nfc precomposedOr
  cases h : composePair a b <;> simp [nfcGo, h]

/-! ### Character facts used by the symbolic pipeline proofs -/

theorem accent_class_facts : ∀ a ∈ ACCENT_CLASS,
    isAccentCode a = true ∧ (ACCENT_COMBINING a).isSome = true ∧
    a ≠ '\\' ∧ a ≠ '{' ∧ a ≠ '}' ∧
    a ≠ 's' ∧ a ≠ 'S' ∧ a ≠ 'a' ∧ a ≠ 'A' ∧
    a ≠ 'o' ∧ a ≠ 'O' ∧ a ≠ 'l' ∧ a ≠ 'L' := by decide

theorem accent_mark_facts : ∀ a ∈ ACCENT_CLASS, ∀ m,
    ACCENT_COMBINING a = some m →
    (m ≠ '\\' ∧ m ≠ '{' ∧ m ≠ '}' ∧ m ≠ '-' ∧ m ≠ btick ∧ m ≠ apos ∧
      768 ≤ m.toNat) := by
  intro a ha m hm
  have : ∀ a ∈ ACCENT_CLASS,
      ((ACCENT_COMBINING a).getD ' ' ≠ '\\' ∧ (ACCENT_COMBINING a).getD ' ' ≠ '{' ∧
        (ACCENT_COMBINING a).getD ' ' ≠ '}' ∧ (ACCENT_COMBINING a).getD ' ' ≠ '-' ∧
        (ACCENT_COMBINING a).getD ' ' ≠ btick ∧ (ACCENT_COMBINING a).getD ' ' ≠ apos ∧
        768 ≤ ((ACCENT_COMBINING a).getD ' ').toNat) := by decide
  have hfacts := this a ha
  rw [hm] at hfacts
  simpa using hfacts

theorem ascii_letter_facts : ∀ l ∈ asciiLetters,
    l.isAlpha = true ∧ l ≠ '\\' ∧ l ≠ '{' ∧ l ≠ '}' ∧ l ≠ '-' ∧
    l ≠ btick ∧ l ≠ apos ∧ l.toNat < 768 := by decide

end BibHtml
namespace BibHtml

theorem latex_accent_eval {a l m : Char} (ha : a ∈ ACCENT_CLASS) (hl : l ∈ asciiLetters)
    (hm : ACCENT_COMBINING a = some m) :
    latex_to_unicode ['\\', a, '{', l, '}'] = precomposedOr l m ∧
    latex_to_unicode ['\\', a, l] = precomposedOr l m := by
  obtain ⟨hA, _, haB, haL, haR, hs, hS, haa, hAA, hoa, hOa, hla, hLa⟩ := accent_class_facts a ha
  obtain ⟨hAl, hlB, hlL, hlR, hlD, hlT, hlQ, hlN⟩ := ascii_letter_facts l hl
  obtain ⟨hmB, hmL, hmR, hmD, hmT, hmQ, hmN⟩ := accent_mark_facts a ha m hm
  have hmac1 : applyMacros ['\\', a, '{', l, '}'] = ['\\', a, '{', l, '}'] := by
    apply applyMacros_id
    intro p hp
    fin_cases hp <;>
      simp [hasSubstr, List.isPrefixOf, Ne.symm haB, Ne.symm hlB,
        Ne.symm hoa, Ne.symm hOa, Ne.symm hla, Ne.symm hLa]
  have hmac2 : applyMacros ['\\', a, l] = ['\\', a, l] := by
    apply applyMacros_id
    intro p hp
    fin_cases hp <;>
      simp [hasSubstr, List.isPrefixOf, Ne.symm haB, Ne.symm hlB,
        Ne.symm hs, Ne.symm hS, Ne.symm haa, Ne.symm hAA,
        Ne.symm hoa, Ne.symm hOa, Ne.symm hla, Ne.symm hLa]
  have hmem : ∀ x ∈ [l, m], x ≠ '{' ∧ x ≠ '}' ∧ x ≠ '-' ∧ x ≠ btick ∧ x ≠ apos := by
    intro x hx
    rcases List.mem_pair.mp hx with h | h <;> subst h
    · exact ⟨hlL, hlR, hlD, hlT, hlQ⟩
    · exact ⟨hmL, hmR, hmD, hmT, hmQ⟩
  have hbr : stripBraces [l, m] = [l, m] :=
    stripBraces_id (fun x hx => (hmem x hx).1) (fun x hx => (hmem x hx).2.1)
  have hdq : applyDashQuotes [l, m] = [l, m] := by
    apply applyDashQuotes_id
    intro p hp
    fin_cases hp <;> exact not_hasSubstr_head fun x hx => by
      obtain ⟨_, _, h1, h2, h3⟩ := hmem x hx
      first
        | exact h1
        | exact h2
        | exact h3
  constructor
  · show latex_to_unicode ['\\', a, '{', l, '}'] = precomposedOr l m
    unfold latex_to_unicode
    rw [if_neg (by simp)]
    rw [hmac1]
    rw [show subBraced ['\\', a, '{', l, '}'] = [l, m] by
      simp [subBraced, hA, hAl, accentRepl, hm]]
    rw [show subUnbraced [l, m] = [l, m] by simp [subUnbraced]]
    rw [hbr, hdq, nfc_pair]
  · show latex_to_unicode ['\\', a, l] = precomposedOr l m
    unfold latex_to_unicode
    rw [if_neg (by simp)]
    rw [hmac2]
    rw [show subBraced ['\\', a, l] = ['\\', a, l] by simp [subBraced, hlB]]
    rw [show subUnbraced ['\\', a, l] = [l, m] by
      simp [subUnbraced, hA, hAl, accentRepl, hm]]
    rw [hbr, hdq, nfc_pair]

end BibHtml
namespace BibHtml

/-! ### C1: braced and unbraced accent commands -/

/-- C1: for every accent code in the supported set and every ASCII letter,
`latex_to_unicode` maps the braced form and the unbraced form of the accent
command to the same output; the output is exactly the NFC composition of the
base letter followed by the single combining mark of the accent table (so
neither form is processed twice), which is the precomposed character where
the canonical composition exists. -/
theorem accent_forms_agree_and_compose (a l : Char)
    (ha : a ∈ ACCENT_CLASS) (hl : l ∈ asciiLetters) :
    latex_to_unicode ['\\', a, '{', l, '}'] = latex_to_unicode ['\\', a, l] ∧
    ∃ m, ACCENT_COMBINING a = some m ∧
      latex_to_unicode ['\\', a, '{', l, '}'] = precomposedOr l m := by
  have hsome : (ACCENT_COMBINING a).isSome = true := (accent_class_facts a ha).2.1
  obtain ⟨m, hm⟩ := Option.isSome_iff_exists.mp hsome
  obtain ⟨h1, h2⟩ := latex_accent_eval ha hl hm
  exact ⟨h1.trans h2.symm, m, hm, h1⟩

/-- Witness for C1 at the diaeresis accent applied to the letter O: both
forms agree and produce precomposed O-with-diaeresis (U+00D6). -/
theorem accent_forms_agree_and_compose_witness :
    latex_to_unicode ['\\', '"', '{', 'O', '}'] = latex_to_unicode ['\\', '"', 'O'] ∧
    latex_to_unicode ['\\', '"', '{', 'O', '}'] = [Char.ofNat 0xD6] := by
  have h := accent_forms_agree_and_compose '"' 'O' (by decide) (by decide)
  refine ⟨h.1, ?_⟩
  obtain ⟨m, hm, he⟩ := h.2
  have hconc : ACCENT_COMBINING '"' = some (Char.ofNat 0x308) := by decide
  rw [hconc] at hm
  have hm2 : m = Char.ofNat 0x308 := (Option.some.inj hm).symm
  subst hm2
  rw [he]
  decide

end BibHtml
namespace BibHtml

/-! ### Author formatting (`format_authors`) -/

/-- `re.sub(r"\s+", " ", s)`: every maximal run of whitespace becomes a
single space.  The flag records whether the previous character was part of a
whitespace run already replaced. -/
def collapseWsGo : Bool → Str → Str
  | _, [] => []
  | prev, c :: rest =>
    if isPySpace c then
      if prev then collapseWsGo true rest else ' ' :: collapseWsGo true rest
    else c :: collapseWsGo false rest

def collapseWs (s : Str) : Str := collapseWsGo false s

/-- `html.escape(s, quote=True)`: `&`, `<`, `>`, `"` and the apostrophe
become entities, ampersand first. -/
def htmlEscape (s : Str) : Str :=
  replaceAll [apos] (cs "&#x27;")
    (replaceAll ['"'] (cs "&quot;")
      (replaceAll ['>'] (cs "&gt;")
        (replaceAll ['<'] (cs "&lt;")
          (replaceAll ['&'] (cs "&amp;") s))))

/-- Match of the separator regex `\s+and\s+` (with `re.IGNORECASE`) at the
start of `s`: one or more whitespace characters, the letters a-n-d in either
case, one or more whitespace characters, both whitespace runs greedy.
Returns the consumed separator and the remainder. -/
def matchSep (s : Str) : Option (Str × Str) :=
  let ws1 := s.takeWhile isPySpace
  if ws1.isEmpty then none
  else
    match s.dropWhile isPySpace with
    | a :: n :: d :: r2 =>
      if a.toLower == 'a' && n.toLower == 'n' && d.toLower == 'd' then
        let ws2 := r2.takeWhile isPySpace
        if ws2.isEmpty then none
        else some (ws1 ++ [a, n, d] ++ ws2, r2.dropWhile isPySpace)
      else none
    | _ => none

/-- `re.split(r"\s+and\s+", s, flags=re.IGNORECASE)`: scan left to right,
splitting at each leftmost separator match.  Returns the parts together with
the matched separators (the separators are kept only for specification
purposes; `re.split` discards them).  The fuel is at least the length of the
remaining input, so the `0` equation is never reached. -/
def reSplitGo : Nat → Str → Str → List Str × List Str
  | _, cur, [] => ([cur.reverse], [])
  | 0, cur, s => ([cur.reverse ++ s], [])
  | fuel+1, cur, c :: rest =>
    match matchSep (c :: rest) with
    | some (sep, r) =>
      (cur.reverse :: (reSplitGo fuel [] r).1, sep :: (reSplitGo fuel [] r).2)
    | none => reSplitGo fuel (c :: cur) rest

def reSplitAnd (s : Str) : List Str × List Str := reSplitGo s.length [] s

/-- The shape of a separator of the split: one or more whitespace
characters, then `and` case-insensitively, then one or more whitespace
characters and nothing else. -/
def isWsAndWs (sep : Str) : Bool :=
  let w1 := sep.takeWhile isPySpace
  match sep.dropWhile isPySpace with
  | a :: n :: d :: r2 =>
    !w1.isEmpty && (a.toLower == 'a' && n.toLower == 'n' && d.toLower == 'd') &&
      !r2.isEmpty && r2.all isPySpace
  | _ => false

/-- The `if "," in p` reordering: split at the first comma, strip both
sides, and emit `right left` when both are non-empty. -/
def reorderComma (p : Str) : Str :=
  if p.contains ',' then
    let left := pyStrip (p.takeWhile (fun c => !(c == ',')))
    let right := pyStrip ((p.dropWhile (fun c => !(c == ','))).drop 1)
    if !left.isEmpty && !right.isEmpty then right ++ [' '] ++ left else p
  else p

def NO_AUTHOR : Str := cs "No author specified"

/-- One iteration of the `for p in parts` loop: strip, skip when empty,
normalize, collapse whitespace, strip, reorder a `Last, First` name. -/
def processPart (p : Str) : Option Str :=
  let p1 := pyStrip p
  if p1.isEmpty then none
  else some (reorderComma (pyStrip (collapseWs (latex_to_unicode p1))))

def joinWith (sepj : Str) : List Str → Str
  | [] => []
  | [x] => x
  | x :: xs => x ++ sepj ++ joinWith sepj xs

/-- `format_authors`: empty input falls back, otherwise split the stripped
input on the word `and`, process each part, escape and join with `", "`;
fall back when no non-empty part remains. -/
def format_authors (authors_raw : Str) : Str :=
  if authors_raw.isEmpty then NO_AUTHOR
  else
    let parts := (reSplitAnd (pyStrip authors_raw)).1
    let norm_parts := parts.filterMap processPart
    if norm_parts.isEmpty then NO_AUTHOR
    else joinWith [',', ' '] (norm_parts.map htmlEscape)

end BibHtml
namespace BibHtml

/-- Interleaving of split parts with the separators between them. -/
def interleave : List Str → List Str → Str
  | [], _ => []
  | p :: ps, [] => p ++ interleave ps []
  | p :: ps, q :: qs => p ++ q ++ interleave ps qs

theorem not_space_of_low (x : Char) (h : (x.toLower == 'a') = true ∨ (x.toLower == 'n') = true ∨ (x.toLower == 'd') = true) :
    isPySpace x = false := by
  by_contra hc
  have hx : isPySpace x = true := by revert hc; cases isPySpace x <;> simp
  simp only [isPySpace, Bool.or_eq_true, decide_eq_true_eq] at hx
  rcases hx with ((((h1 | h1) | h1) | h1) | h1) | h1 <;> subst h1 <;> revert h <;> decide

theorem matchSep_spec {s sep r : Str} (h : matchSep s = some (sep, r)) :
    s = sep ++ r ∧ isWsAndWs sep = true ∧ r.length < s.length := by
  unfold matchSep at h
  set ws1 := s.takeWhile isPySpace with hws1
  by_cases he : ws1.isEmpty
  · rw [if_pos he] at h; exact absurd h (by simp)
  · rw [if_neg he] at h
    match hr1 : s.dropWhile isPySpace with
    | [] => rw [hr1] at h; exact absurd h (by simp)
    | [a] => rw [hr1] at h; exact absurd h (by simp)
    | [a, n] => rw [hr1] at h; exact absurd h (by simp)
    | a :: n :: d :: r2 =>
      rw [hr1] at h
      simp only at h
      by_cases hand : (a.toLower == 'a' && n.toLower == 'n' && d.toLower == 'd') = true
      · rw [if_pos hand] at h
        by_cases hws2 : (r2.takeWhile isPySpace).isEmpty
        · rw [if_pos hws2] at h; exact absurd h (by simp)
        · rw [if_neg hws2] at h
          simp only [Option.some.injEq, Prod.mk.injEq] at h
          obtain ⟨hsep, hrr⟩ := h
          simp only [Bool.and_eq_true, beq_iff_eq] at hand
          obtain ⟨⟨hA, hN⟩, hD⟩ := hand
          have hnsA : isPySpace a = false := not_space_of_low a (Or.inl (by simp [hA]))
          have hs_eq : s = ws1 ++ (a :: n :: d :: r2) := by
            rw [hws1, ← hr1]; exact (List.takeWhile_append_dropWhile ..).symm
          have hr2_eq : r2 = r2.takeWhile isPySpace ++ r := by
            rw [← hrr]; exact (List.takeWhile_append_dropWhile ..).symm
          have hws1_all : ∀ x ∈ ws1, isPySpace x = true := by
            intro x hx; rw [hws1] at hx
            exact List.all_eq_true.mp (List.all_takeWhile) x hx
          have he' : ws1.isEmpty = false := by simpa using he
          have hws2' : (r2.takeWhile isPySpace).isEmpty = false := by simpa using hws2
          refine ⟨?_, ?_, ?_⟩
          · rw [hs_eq, ← hsep]
            conv_lhs => rw [hr2_eq]
            simp
          · unfold isWsAndWs
            rw [← hsep]
            have htw : ((ws1 ++ ([a, n, d] ++ r2.takeWhile isPySpace)).takeWhile isPySpace) = ws1 := by
              rw [List.takeWhile_append_of_pos hws1_all]
              simp [List.takeWhile_cons_of_neg, hnsA]
            have hdw : ((ws1 ++ ([a, n, d] ++ r2.takeWhile isPySpace)).dropWhile isPySpace)
                = a :: n :: d :: r2.takeWhile isPySpace := by
              rw [List.dropWhile_append_of_pos hws1_all]
              simp [List.dropWhile_cons_of_neg, hnsA]
            simp only [List.append_assoc] at htw hdw ⊢
            rw [htw, hdw]
            simp [he', hws2', hA, hN, hD]
          · have h1 : ws1.length + (a :: n :: d :: r2).length = s.length := by
              rw [hs_eq]; simp
            have h2 : (r2.takeWhile isPySpace).length + r.length = r2.length := by
              conv_rhs => rw [hr2_eq]
              simp
            have hge : 1 ≤ ws1.length := by
              cases hws : ws1 with
              | nil => rw [hws] at he; simp at he
              | cons _ _ => simp
            simp only [List.length_cons] at h1
            omega
      · rw [if_neg hand] at h; exact absurd h (by simp)

end BibHtml
namespace BibHtml

theorem reSplitGo_reconstruct :
    ∀ (fuel : Nat) (cur s : Str), s.length ≤ fuel →
      interleave (reSplitGo fuel cur s).1 (reSplitGo fuel cur s).2 = cur.reverse ++ s := by
  intro fuel
  induction fuel with
  | zero =>
    intro cur s hs
    have : s = [] := List.eq_nil_of_length_eq_zero (Nat.le_zero.mp hs)
    subst this
    simp [reSplitGo, interleave]
  | succ f ih =>
    intro cur s hs
    match s with
    | [] => simp [reSplitGo, interleave]
    | c :: rest =>
      rw [reSplitGo]
      match hm : matchSep (c :: rest) with
      | some (sep, r) =>
        obtain ⟨heq, _, hlt⟩ := matchSep_spec hm
        have hr : r.length ≤ f := by
          have h1 : r.length < (c :: rest).length := hlt
          have h2 : (c :: rest).length ≤ f + 1 := hs
          omega
        simp only [interleave]
        have hrec := ih [] r hr
        simp only [List.reverse_nil, List.nil_append] at hrec
        rw [hrec, heq]
        simp
      | none =>
        have : rest.length ≤ f := by simp only [List.length_cons] at hs; omega
        rw [ih (c :: cur) rest this]
        simp

theorem reSplitGo_seps :
    ∀ (fuel : Nat) (cur s : Str), s.length ≤ fuel →
      ∀ sep ∈ (reSplitGo fuel cur s).2, isWsAndWs sep = true := by
  intro fuel
  induction fuel with
  | zero =>
    intro cur s hs
    have : s = [] := List.eq_nil_of_length_eq_zero (Nat.le_zero.mp hs)
    subst this
    simp [reSplitGo]
  | succ f ih =>
    intro cur s hs
    match s with
    | [] => simp [reSplitGo]
    | c :: rest =>
      rw [reSplitGo]
      match hm : matchSep (c :: rest) with
      | some (sep, r) =>
        obtain ⟨heq, hshape, hlt⟩ := matchSep_spec hm
        have hr : r.length ≤ f := by
          have h1 : r.length < (c :: rest).length := hlt
          have h2 : (c :: rest).length ≤ f + 1 := hs
          omega
        intro q hq
        simp only [List.mem_cons] at hq
        rcases hq with hq | hq
        · subst hq; exact hshape
        · exact ih [] r hr q hq
      | none =>
        have : rest.length ≤ f := by simp only [List.length_cons] at hs; omega
        exact ih (c :: cur) rest this

end BibHtml
namespace BibHtml

/-! ### C5: author splitting on the word `and` -/

/-- C5: the split used by `format_authors` on its trimmed input separates
only at occurrences of the word `and` surrounded on both sides by one or
more whitespace characters, case-insensitively: the parts interleaved with
the matched separators reconstruct the input exactly, and every matched
separator has the whitespace-`and`-whitespace shape, so no other occurrence
of the substring `and` causes a split.  In particular
`"J. Doe and K. Anderson"` splits into exactly the two names `J. Doe` and
`K. Anderson` (not three), and `format_authors` renders `J. Doe, K. Anderson`. -/
theorem format_authors_split_word_and (s : Str) :
    interleave (reSplitAnd s).1 (reSplitAnd s).2 = s ∧
    (∀ sep ∈ (reSplitAnd s).2, isWsAndWs sep = true) ∧
    (reSplitAnd (pyStrip (cs "J. Doe and K. Anderson"))).1 = [cs "J. Doe", cs "K. Anderson"] ∧
    format_authors (cs "J. Doe and K. Anderson") = cs "J. Doe, K. Anderson" := by
  have h1 := reSplitGo_reconstruct s.length [] s (Nat.le_refl _)
  simp only [List.reverse_nil, List.nil_append] at h1
  exact ⟨h1, reSplitGo_seps s.length [] s (Nat.le_refl _), by decide, by decide⟩

/-- Witness for C5 at a concrete input: the split of `"x and y"`
reconstructs the input, and its separator `" and "` has the
whitespace-`and`-whitespace shape. -/
theorem format_authors_split_word_and_witness :
    interleave (reSplitAnd (cs "x and y")).1 (reSplitAnd (cs "x and y")).2 = cs "x and y" ∧
    isWsAndWs (cs " and ") = true := by
  have h := format_authors_split_word_and (cs "x and y")
  exact ⟨h.1, h.2.1 (cs " and ") (by decide)⟩

end BibHtml
namespace BibHtml

theorem replaceAll_prepend (pat repl u : Str) (hp : pat ≠ []) (hu : hasSubstr pat u = false) :
    replaceAll pat repl (pat ++ u) = repl ++ u := by
  match pat with
  | p :: ps =>
    unfold replaceAll
    have hlen : ((p :: ps) ++ u).length = (ps ++ u).length + 1 := by simp
    rw [hlen]
    show replaceAllGo (p :: ps) repl ((ps ++ u).length + 1) (p :: (ps ++ u)) = repl ++ u
    rw [replaceAllGo]
    have hpre : (p :: ps).isPrefixOf ((p :: ps) ++ u) = true := by
      rw [List.isPrefixOf_iff_prefix]
      exact List.prefix_append _ _
    have hcond : (!(p :: ps).isEmpty && (p :: ps).isPrefixOf (p :: (ps ++ u))) = true := by
      simp only [List.isEmpty_cons, Bool.not_false, Bool.true_and]
      exact hpre
    rw [if_pos hcond]
    have hdrop : (p :: (ps ++ u)).drop (p :: ps).length = u := by
      show ((p :: ps) ++ u).drop (p :: ps).length = u
      exact List.drop_left _ _
    rw [hdrop]
    have : u.length ≤ (ps ++ u).length := by simp
    rw [replaceAllGo_of_not_hasSubstr _ _ this hu]

theorem mem_cons_ne_bs {c : Char} {t : Str} (hc : c ≠ '\\') (ht : ∀ x ∈ t, x ≠ '\\') :
    ∀ x ∈ c :: t, x ≠ '\\' := by
  intro x hx
  rcases List.mem_cons.mp hx with h | h
  · subst h; exact hc
  · exact ht x h

/-- The longer ligature macro is applied before its two-character prefix
macro could corrupt it: on a backslash-o-e sequence followed by any
backslash-free text the macro pass produces the oe ligature, not the
o-slash. -/
theorem applyMacros_oe (t : Str) (ht : ∀ x ∈ t, x ≠ '\\') :
    applyMacros ('\\' :: 'o' :: 'e' :: t) = 'œ' :: t := by
  have hoet : ∀ x ∈ 'o' :: 'e' :: t, x ≠ '\\' :=
    mem_cons_ne_bs (by decide) (mem_cons_ne_bs (by decide) ht)
  have hoe : ∀ x ∈ 'œ' :: t, x ≠ '\\' := mem_cons_ne_bs (by decide) ht
  have h1 : hasSubstr ['\\', 's', 's'] ('\\' :: 'o' :: 'e' :: t) = false := by
    simp [hasSubstr, List.isPrefixOf, not_hasSubstr_head ht]
  have h2 : hasSubstr ['\\', 'S', 'S'] ('\\' :: 'o' :: 'e' :: t) = false := by
    simp [hasSubstr, List.isPrefixOf, not_hasSubstr_head ht]
  have h3 : hasSubstr ['\\', 'a', 'e'] ('\\' :: 'o' :: 'e' :: t) = false := by
    simp [hasSubstr, List.isPrefixOf, not_hasSubstr_head ht]
  have h4 : hasSubstr ['\\', 'A', 'E'] ('\\' :: 'o' :: 'e' :: t) = false := by
    simp [hasSubstr, List.isPrefixOf, not_hasSubstr_head ht]
  unfold applyMacros SPECIAL_MACROS
  simp only [List.foldl_cons, List.foldl_nil]
  rw [replaceAll_of_not_hasSubstr h1, replaceAll_of_not_hasSubstr h2,
    replaceAll_of_not_hasSubstr h3, replaceAll_of_not_hasSubstr h4]
  rw [show ('\\' :: 'o' :: 'e' :: t) = ['\\', 'o', 'e'] ++ t from rfl]
  rw [replaceAll_prepend _ _ _ (by simp) (not_hasSubstr_head ht)]
  simp only [List.singleton_append]
  simp only [replaceAll_of_not_hasSubstr (not_hasSubstr_head hoe)]

end BibHtml
namespace BibHtml

/-! ### C6: special-macro replacement -/

/-- C6 counterexample: the input `\omega` merely begins with the table entry
`\o` and continues with more letters, yet `latex_to_unicode` rewrites it to
`ømega` instead of leaving it untouched — the macro pass is literal
substring replacement, not exact-match replacement. -/
theorem macro_prefix_rewrite_counterexample :
    latex_to_unicode (cs "\\omega") = cs "ømega" ∧
    latex_to_unicode (cs "\\omega") ≠ cs "\\omega" := by decide

/-- C6 amended: macro replacement is literal substring replacement applied
in table order; the longer ligature entries precede their two-character
prefixes, so on any backslash-o-e sequence followed by backslash-free text
the oe-ligature macro applies first and is never corrupted by the o-slash
macro (and likewise for the concrete `\oe` and `\OE` inputs), but a
backslash sequence that merely begins with a table entry and continues with
more letters is rewritten by replacing that prefix, as in `\omega → ømega`. -/
theorem macro_table_order_no_shadowing :
    (∀ t : Str, (∀ x ∈ t, x ≠ '\\') →
      applyMacros ('\\' :: 'o' :: 'e' :: t) = 'œ' :: t) ∧
    latex_to_unicode (cs "\\oe") = ['œ'] ∧
    latex_to_unicode (cs "\\OE") = ['Œ'] ∧
    latex_to_unicode (cs "\\omega") = cs "ømega" :=
  ⟨applyMacros_oe, by decide, by decide, by decide⟩

/-- Witness for C6 at a concrete tail: `\oema` has its `\oe` replaced by the
ligature before the `\o` entry could apply. -/
theorem macro_table_order_no_shadowing_witness :
    applyMacros ('\\' :: 'o' :: 'e' :: cs "ma") = 'œ' :: cs "ma" :=
  macro_table_order_no_shadowing.1 (cs "ma") (by decide)

end BibHtml
namespace BibHtml

theorem replaceAll_single_filter (x : Char) (s : Str) :
    replaceAll [x] [] s = s.filter (fun ch => !(ch == x)) := by
  suffices h : ∀ (fuel : Nat) (u : Str), u.length ≤ fuel →
      replaceAllGo [x] [] fuel u = u.filter (fun ch => !(ch == x)) by
    exact h s.length s (Nat.le_refl _)
  intro fuel
  induction fuel with
  | zero =>
    intro u hu
    have : u = [] := List.eq_nil_of_length_eq_zero (Nat.le_zero.mp hu)
    subst this; rfl
  | succ f ih =>
    intro u hu
    match u with
    | [] => rfl
    | c :: rest =>
      have hrest : rest.length ≤ f := by simp only [List.length_cons] at hu; omega
      by_cases hc : x = c
      · subst hc
        have hcond : (!([x] : Str).isEmpty && ([x] : Str).isPrefixOf (x :: rest)) = true := by
          simp [List.isPrefixOf]
        rw [replaceAllGo, if_pos hcond]
        simpa using ih rest hrest
      · have hcond : (!([x] : Str).isEmpty && ([x] : Str).isPrefixOf (c :: rest)) = false := by
          simp [List.isPrefixOf, beq_eq_false_iff_ne]
          exact hc
        rw [replaceAllGo, if_neg (by rw [hcond]; simp)]
        have hcx : (c == x) = false := by
          simp [beq_eq_false_iff_ne]
          exact fun h => hc h.symm
        simp only [List.filter_cons, hcx, Bool.not_false]
        rw [ih rest hrest]
        simp

end BibHtml
namespace BibHtml

theorem nfcGo_cons2 (f : Nat) (a b : Char) (rest : Str) :
    nfcGo (f + 1) (a :: b :: rest)
      = match composePair a b with
        | some p => nfcGo f (p :: rest)
        | none => a :: nfcGo f (b :: rest) := rfl

/-- C7: an accent-like backslash sequence whose code is outside the fixed
supported set is left as a literal backslash sequence by `latex_to_unicode`:
the unbraced form passes through unchanged, and the braced form keeps the
backslash, the code and the letter, losing only its braces to the separate
residual-brace-stripping step.  The hypotheses require the code to be
outside the accent class, distinct from the backslash and brace characters
handled by other steps, and not to start a special-macro occurrence. -/
theorem unknown_accent_left_literal (c l : Char)
    (hc : isAccentCode c = false)
    (hcb : c ≠ '\\') (hcl : c ≠ '{') (hcr : c ≠ '}')
    (hl : l ∈ asciiLetters)
    (hm : ∀ p ∈ SPECIAL_MACROS, p.1.isPrefixOf ['\\', c, l] = false) :
    latex_to_unicode ['\\', c, l] = ['\\', c, l] ∧
    latex_to_unicode ['\\', c, '{', l, '}'] = ['\\', c, l] := by
  obtain ⟨hAl, hlB, hlL, hlR, hlD, hlT, hlQ, hlN⟩ := ascii_letter_facts l hl
  have hco : c ≠ 'o' := by
    intro he; subst he
    have := hm (['\\', 'o'], ['ø']) (by simp [SPECIAL_MACROS])
    simp [List.isPrefixOf] at this
  have hcO : c ≠ 'O' := by
    intro he; subst he
    have := hm (['\\', 'O'], ['Ø']) (by simp [SPECIAL_MACROS])
    simp [List.isPrefixOf] at this
  have hcll : c ≠ 'l' := by
    intro he; subst he
    have := hm (['\\', 'l'], ['ł']) (by simp [SPECIAL_MACROS])
    simp [List.isPrefixOf] at this
  have hcL : c ≠ 'L' := by
    intro he; subst he
    have := hm (['\\', 'L'], ['Ł']) (by simp [SPECIAL_MACROS])
    simp [List.isPrefixOf] at this
  have hguard : (isAccentCode c && l.isAlpha) = false := by simp [hc]
  have hmac1 : applyMacros ['\\', c, l] = ['\\', c, l] := by
    apply applyMacros_id
    intro p hp
    have hp0 := hm p hp
    fin_cases hp <;>
      simp_all [hasSubstr, List.isPrefixOf, Ne.symm hcb, Ne.symm hlB] <;>
      try exact hp0
  have hsb1 : subBraced ['\\', c, l] = ['\\', c, l] := by
    simp [subBraced, hcb, Ne.symm hcb, hlB, Ne.symm hlB, Ne.symm hcl]
  have hsu1 : subUnbraced ['\\', c, l] = ['\\', c, l] := by
    simp [subUnbraced, hguard, hcb, Ne.symm hcb, hlB, Ne.symm hlB]
  have hbr1 : stripBraces ['\\', c, l] = ['\\', c, l] := by
    apply stripBraces_id
    · intro x hx
      simp only [List.mem_cons, List.not_mem_nil, or_false] at hx
      rcases hx with h | h | h <;> subst h
      · decide
      · exact hcl
      · exact hlL
    · intro x hx
      simp only [List.mem_cons, List.not_mem_nil, or_false] at hx
      rcases hx with h | h | h <;> subst h
      · decide
      · exact hcr
      · exact hlR
  have hdq1 : applyDashQuotes ['\\', c, l] = ['\\', c, l] := by
    apply applyDashQuotes_id
    intro p hp
    fin_cases hp <;>
      simp [hasSubstr, List.isPrefixOf, Ne.symm hlD, Ne.symm hlT, Ne.symm hlQ] <;>
      exact fun h => absurd h (by decide)
  have hnfc1 : nfc ['\\', c, l] = ['\\', c, l] := by
    show nfcGo 3 ['\\', c, l] = ['\\', c, l]
    show nfcGo (2 + 1) ['\\', c, l] = ['\\', c, l]
    rw [nfcGo_cons2, composePair_of_backslash_base c]
    show '\\' :: nfcGo (1 + 1) [c, l] = ['\\', c, l]
    rw [nfcGo_cons2, composePair_of_low_mark hlN]
    rfl
  constructor
  · unfold latex_to_unicode
    rw [if_neg (by simp)]
    rw [hmac1, hsb1, hsu1, hbr1, hdq1, hnfc1]
  · have hmac2 : applyMacros ['\\', c, '{', l, '}'] = ['\\', c, '{', l, '}'] := by
      apply applyMacros_id
      intro p hp
      fin_cases hp <;>
        simp [hasSubstr, List.isPrefixOf, Ne.symm hcb, Ne.symm hlB,
          Ne.symm hco, Ne.symm hcO, Ne.symm hcll, Ne.symm hcL]
    have hsb2 : subBraced ['\\', c, '{', l, '}'] = ['\\', c, '{', l, '}'] := by
      simp [subBraced, hguard, hcb, Ne.symm hcb, hlB, Ne.symm hlB]
    have hsu2 : subUnbraced ['\\', c, '{', l, '}'] = ['\\', c, '{', l, '}'] := by
      simp [subUnbraced, hcb, Ne.symm hcb, hlB, Ne.symm hlB, hc]
    have hbr2 : stripBraces ['\\', c, '{', l, '}'] = ['\\', c, l] := by
      unfold stripBraces
      rw [replaceAll_single_filter, replaceAll_single_filter]
      have hc1 : (c == '{') = false := by rw [beq_eq_false_iff_ne]; exact hcl
      have hc2 : (c == '}') = false := by rw [beq_eq_false_iff_ne]; exact hcr
      have hl1 : (l == '{') = false := by rw [beq_eq_false_iff_ne]; exact hlL
      have hl2 : (l == '}') = false := by rw [beq_eq_false_iff_ne]; exact hlR
      simp [List.filter_cons, hc1, hc2, hl1, hl2]
    unfold latex_to_unicode
    rw [if_neg (by simp)]
    rw [hmac2, hsb2, hsu2, hbr2, hdq1, hnfc1]

/-- Witness for C7 at the unknown accent code `q` and letter `a`. -/
theorem unknown_accent_left_literal_witness :
    latex_to_unicode ['\\', 'q', 'a'] = ['\\', 'q', 'a'] ∧
    latex_to_unicode ['\\', 'q', '{', 'a', '}'] = ['\\', 'q', 'a'] :=
  unknown_accent_left_literal 'q' 'a' (by decide) (by decide) (by decide) (by decide)
    (by decide) (by decide)

end BibHtml
namespace BibHtml

/-! ### Bibliographic records and the entry renderer -/

/-- A parsed BibTeX entry: the field dictionary produced by the external
parser (keys unique; lookup returns the first binding). -/
def Record := List (String × String)

/-- `entry.get(k)`: `none` models Python `None` for an absent key. -/
def pyGet (e : Record) (k : String) : Option String := List.lookup k e

/-- `entry.get(k, d)`. -/
def pyGetD (e : Record) (k d : String) : String := (pyGet e k).getD d

/-- Python truthiness of an `Optional[str]`: present and non-empty. -/
def truthy (v : Option String) : Bool :=
  match v with
  | none => false
  | some s => !s.isEmpty

/-- Python f-string interpolation of an `Optional[str]`: `None` prints as
the four characters `None`. -/
def pyShowOpt (v : Option String) : String :=
  match v with
  | none => "None"
  | some s => s

/-- Python `str.lower()` (modeled for ASCII, which is all the prefix test
and the `arxiv` comparison need). -/
def pyLower (s : String) : Str := s.data.map Char.toLower

/-- Lines 156–163: resolve the link URL.  `url` is taken when truthy; a
truthy `doi` overrides it — used verbatim when its lowercased value starts
with `http`, otherwise prefixed with `https://doi.org/`. -/
def resolveLink (e : Record) : Option String :=
  let link_url := if truthy (pyGet e "url") then pyGet e "url" else none
  match pyGet e "doi" with
  | some d =>
    if !d.isEmpty then
      if !((cs "http").isPrefixOf (pyLower d)) then some ("https://doi.org/" ++ d)
      else some d
    else link_url
  | none => link_url

/-- Line 181: `entry.get('journal') or entry.get('booktitle') or ''`. -/
def venueRaw (e : Record) : String :=
  if truthy (pyGet e "journal") then pyGetD e "journal" ""
  else if truthy (pyGet e "booktitle") then pyGetD e "booktitle" ""
  else ""

/-- Line 153: `entry.get('year', '')`. -/
def entryYear (e : Record) : String := pyGetD e "year" ""

/-- Lines 182–184: normalize the venue; when it is empty and
`archivePrefix` equals `arxiv` case-insensitively, synthesize
`arXiv:{entry.get('eprint')}` (an absent eprint interpolates as `None`). -/
def venuePre (e : Record) : String :=
  let venue := (latex_to_unicode (venueRaw e).data).asString
  if venue.isEmpty && (pyLower (pyGetD e "archivePrefix" "") == cs "arxiv") then
    "arXiv:" ++ pyShowOpt (pyGet e "eprint")
  else venue

/-- Lines 185–187: strip a known year out of a non-empty venue, trim
spaces, commas and periods at both ends, then HTML-escape. -/
def venueOf (e : Record) : String :=
  let v := venuePre e
  let v2 :=
    if !v.isEmpty && !(entryYear e).isEmpty then
      (pyStripChars (cs " ,.") (replaceAll (entryYear e).data [] v.data)).asString
    else v
  (htmlEscape v2.data).asString

end BibHtml

namespace BibHtml

/-! ### C2: DOI overrides the URL -/

/-- C2: whenever a record carries a present, non-empty `doi` field, the
resolved link is determined by the doi alone (any `url` field is
overridden): the doi value is used verbatim when its prefix, compared
case-insensitively, is `http`, and otherwise the link is
`https://doi.org/` followed by the doi value. -/
theorem doi_overrides_url (e : Record) (d : String)
    (hd : pyGet e "doi" = some d) (hne : d ≠ "") :
    resolveLink e =
      some (if (cs "http").isPrefixOf (pyLower d) then d else "https://doi.org/" ++ d) := by
  unfold resolveLink
  rw [hd]
  have hne' : d.isEmpty = false := by
    cases hde : d.isEmpty
    · rfl
    · exact absurd ((String.isEmpty_iff d).mp hde) hne
  simp only [hne', Bool.not_false, if_true]
  cases hp : (cs "http").isPrefixOf (pyLower d) <;> simp

/-- Witness for C2 at the spec's example: a record with both a `url` and
`doi="10.1/x"` resolves to `https://doi.org/10.1/x` — the DOI wins. -/
theorem doi_overrides_url_witness :
    resolveLink [("url", "http://example.com"), ("doi", "10.1/x")]
      = some ("https://doi.org/" ++ "10.1/x") := by
  have h := doi_overrides_url [("url", "http://example.com"), ("doi", "10.1/x")]
    "10.1/x" (by decide) (by decide)
  rw [h, if_neg (by decide)]

end BibHtml
namespace BibHtml

theorem data_asString (l : List Char) : (List.asString l).data = l := rfl

/-! ### C8: year stripping in the venue -/

/-- C8: for every record whose derived venue string is non-empty and whose
year is known (non-empty), the rendered venue is obtained by deleting every
occurrence of the literal year substring from the venue and stripping
leftover spaces, commas and periods from both ends, before HTML-escaping;
the spec example `"Proc. of X 2023"` with year `"2023"` renders as
`"Proc. of X"`. -/
theorem venue_year_stripping (e : Record)
    (hv : venuePre e ≠ "") (hy : entryYear e ≠ "") :
    venueOf e =
      (htmlEscape (pyStripChars (cs " ,.")
        (replaceAll (entryYear e).data [] (venuePre e).data))).asString ∧
    venueOf [("booktitle", "Proc. of X 2023"), ("year", "2023")] = "Proc. of X" := by
  constructor
  · unfold venueOf
    have hv' : (venuePre e).isEmpty = false := by
      cases hde : (venuePre e).isEmpty
      · rfl
      · exact absurd ((String.isEmpty_iff _).mp hde) hv
    have hy' : (entryYear e).isEmpty = false := by
      cases hde : (entryYear e).isEmpty
      · rfl
      · exact absurd ((String.isEmpty_iff _).mp hde) hy
    simp only [hv', hy', Bool.not_false, Bool.and_self, if_true]
    rw [data_asString]
  · decide

/-- Witness for C8 at the spec's example record. -/
theorem venue_year_stripping_witness :
    venueOf [("booktitle", "Proc. of X 2023"), ("year", "2023")] = "Proc. of X" :=
  (venue_year_stripping [("booktitle", "Proc. of X 2023"), ("year", "2023")]
    (by decide) (by decide)).2

/-! ### C10: missing eprint interpolates as `None` -/

/-- C10 counterexample: a record with no journal, no booktitle,
`archivePrefix = "arXiv"` and no eprint satisfies every condition of the
claim, yet with `year = "None"` the year-stripping step deletes the `None`
substring from the synthesized venue and the rendered venue is `arXiv:`,
not the claimed literal `arXiv:None`. -/
theorem arxiv_none_counterexample :
    pyGet [("archivePrefix", "arXiv"), ("year", "None")] "journal" = none ∧
    pyGet [("archivePrefix", "arXiv"), ("year", "None")] "booktitle" = none ∧
    pyLower (pyGetD [("archivePrefix", "arXiv"), ("year", "None")] "archivePrefix" "") = cs "arxiv" ∧
    pyGet [("archivePrefix", "arXiv"), ("year", "None")] "eprint" = none ∧
    venueOf [("archivePrefix", "arXiv"), ("year", "None")] = "arXiv:" ∧
    venueOf [("archivePrefix", "arXiv"), ("year", "None")] ≠ "arXiv:None" := by decide

/-- C10 amended: for every record with no truthy journal or booktitle,
`archivePrefix` equal to `arxiv` case-insensitively and no `eprint` field,
the rendered venue is the literal `arXiv:None`, provided the record's year
is empty or does not occur as a substring of `arXiv:None` (any ordinary
digit-bearing year qualifies); a pathological year such as `"None"` is
instead partially deleted by the year-stripping step. -/
theorem arxiv_none_venue (e : Record)
    (hj : truthy (pyGet e "journal") = false)
    (hb : truthy (pyGet e "booktitle") = false)
    (ha : (pyLower (pyGetD e "archivePrefix" "") == cs "arxiv") = true)
    (he : pyGet e "eprint" = none)
    (hy : entryYear e = "" ∨ hasSubstr (entryYear e).data (cs "arXiv:None") = false) :
    venueOf e = "arXiv:None" := by
  have hraw : venueRaw e = "" := by
    unfold venueRaw
    rw [hj, hb]
    simp
  have hpre : venuePre e = "arXiv:None" := by
    unfold venuePre
    rw [hraw, he]
    simp only [ha, Bool.and_true]
    rw [if_pos (by decide)]
    rfl
  unfold venueOf
  rw [hpre]
  rcases hy with hy | hy
  · rw [hy]
    decide
  · have hy' : hasSubstr (entryYear e).data ("arXiv:None" : String).data = false := hy
    by_cases h2 : (entryYear e).isEmpty = true
    · have h3 : entryYear e = "" := (String.isEmpty_iff _).mp h2
      rw [h3]
      decide
    · have h2' : (entryYear e).isEmpty = false := by
        cases hx : (entryYear e).isEmpty
        · rfl
        · exact absurd hx h2
      simp only [h2', Bool.not_false, Bool.and_true]
      rw [if_pos (by decide)]
      rw [replaceAll_of_not_hasSubstr hy']
      decide

/-- Witness for C10 (amended) at a record with an ordinary year. -/
theorem arxiv_none_venue_witness :
    venueOf [("archivePrefix", "ArXiv"), ("year", "2024")] = "arXiv:None" :=
  arxiv_none_venue [("archivePrefix", "ArXiv"), ("year", "2024")]
    (by decide) (by decide) (by decide) (by decide) (Or.inr (by decide))

end BibHtml
namespace BibHtml

/-! ### Python `sorted` and the year ordering -/

/-- Stable insertion of `x` into an already sorted list: `x` passes over
strictly smaller elements and lands before the first element not strictly
smaller, matching the stable ascending order of Python `sorted`. -/
def insertSorted (le : α → α → Bool) (x : α) : List α → List α
  | [] => [x]
  | y :: ys => if le y x && !(le x y) then y :: insertSorted le x ys else x :: y :: ys

/-- Python `sorted(l, key=...)` as a stable insertion sort with the `le`
induced by the key. -/
def pySorted (le : α → α → Bool) (l : List α) : List α := l.foldr (insertSorted le) []

theorem insertSorted_perm (le : α → α → Bool) (x : α) :
    ∀ l : List α, List.Perm (insertSorted le x l) (x :: l)
  | [] => List.Perm.refl _
  | y :: ys => by
    unfold insertSorted
    by_cases h : (le y x && !(le x y)) = true
    · rw [if_pos h]
      exact (List.Perm.cons y (insertSorted_perm le x ys)).trans (List.Perm.swap x y ys)
    · rw [if_neg h]

theorem pySorted_perm (le : α → α → Bool) : ∀ l : List α, List.Perm (pySorted le l) l
  | [] => List.Perm.refl _
  | a :: l => by
    show List.Perm (insertSorted le a (pySorted le l)) (a :: l)
    exact (insertSorted_perm le a (pySorted le l)).trans
      (List.Perm.cons a (pySorted_perm le l))

theorem insertSorted_pairwise {le : α → α → Bool}
    (htotal : ∀ a b, le a b = true ∨ le b a = true)
    (htrans : ∀ a b c, le a b = true → le b c = true → le a c = true) (x : α) :
    ∀ l : List α, l.Pairwise (fun a b => le a b = true) →
      (insertSorted le x l).Pairwise (fun a b => le a b = true)
  | [], _ => by simp [insertSorted]
  | y :: ys, hp => by
    unfold insertSorted
    obtain ⟨hy, hys⟩ := List.pairwise_cons.mp hp
    by_cases h : (le y x && !(le x y)) = true
    · rw [if_pos h]
      refine List.pairwise_cons.mpr ⟨?_, insertSorted_pairwise htotal htrans x ys hys⟩
      intro z hz
      have hz' := (insertSorted_perm le x ys).mem_iff.mp hz
      rcases List.mem_cons.mp hz' with hzx | hzz
      · subst hzx
        exact (Bool.and_eq_true ..).mp h |>.1
      · exact hy z hzz
    · rw [if_neg h]
      have hxy : le x y = true := by
        rcases htotal x y with ht | ht
        · exact ht
        · by_contra hxy
          apply h
          simp only [Bool.and_eq_true, Bool.not_eq_true']
          exact ⟨ht, by cases hc : le x y; rfl; exact absurd hc hxy⟩
      refine List.pairwise_cons.mpr ⟨?_, hp⟩
      intro z hz
      rcases List.mem_cons.mp hz with hzy | hzz
      · subst hzy; exact hxy
      · exact htrans x y z hxy (hy z hzz)

theorem pySorted_pairwise {le : α → α → Bool}
    (htotal : ∀ a b, le a b = true ∨ le b a = true)
    (htrans : ∀ a b c, le a b = true → le b c = true → le a c = true) :
    ∀ l : List α, (pySorted le l).Pairwise (fun a b => le a b = true)
  | [] => List.Pairwise.nil
  | a :: l => by
    show (insertSorted le a (pySorted le l)).Pairwise _
    exact insertSorted_pairwise htotal htrans a _ (pySorted_pairwise htotal htrans l)

/-- Python `int(y)` on an all-digit body. -/
def parseIntAux (ds : Str) : Option Nat :=
  if !ds.isEmpty && ds.all Char.isDigit then
    some (ds.foldl (fun n c => 10 * n + (c.toNat - 48)) 0)
  else none

/-- Python `int(y)` for ASCII inputs: optional surrounding whitespace, an
optional sign, one or more decimal digits.  (CPython additionally accepts
underscores between digits and Unicode digits; nothing here depends on
those.) -/
def pyInt (s : String) : Option Int :=
  match pyStrip s.data with
  | '-' :: ds => (parseIntAux ds).map (fun n => -(n : Int))
  | '+' :: ds => (parseIntAux ds).map (fun n => (n : Int))
  | ds => (parseIntAux ds).map (fun n => (n : Int))

/-- Python string comparison `a < b`: code-point lexicographic. -/
def strLt : Str → Str → Bool
  | [], [] => false
  | [], _ :: _ => true
  | _ :: _, [] => false
  | a :: as, b :: bs =>
    if a < b then true else if b < a then false else strLt as bs

/-- Python string comparison `a <= b`, i.e. `not (b < a)`. -/
def pyStrLE (a b : String) : Bool := !(strLt b.data a.data)

theorem strLt_irrefl : ∀ s : Str, strLt s s = false
  | [] => rfl
  | a :: as => by simp [strLt, strLt_irrefl as]

theorem strLt_trans : ∀ s t u : Str,
    strLt s t = true → strLt t u = true → strLt s u = true := by
  intro s
  induction s with
  | nil =>
    intro t u hst htu
    match t, u with
    | [], _ => simp [strLt] at hst
    | _ :: _, [] => simp [strLt] at htu
    | _ :: _, _ :: _ => rfl
  | cons a as ih =>
    intro t u hst htu
    match t, u with
    | [], _ => simp [strLt] at hst
    | _ :: _, [] => simp [strLt] at htu
    | b :: bs, c :: cs =>
      simp only [strLt] at hst htu ⊢
      by_cases hab : a < b
      · by_cases hbc : b < c
        · simp [lt_trans hab hbc]
        · by_cases hcb : c < b
          · rw [if_neg hbc, if_pos hcb] at htu
            exact absurd htu (by simp)
          · have hbceq : b = c := le_antisymm (not_lt.mp hcb) (not_lt.mp hbc)
            subst hbceq
            simp [hab]
      · by_cases hba : b < a
        · rw [if_neg hab, if_pos hba] at hst
          exact absurd hst (by simp)
        · have habeq : a = b := le_antisymm (not_lt.mp hba) (not_lt.mp hab)
          subst habeq
          rw [if_neg hab, if_neg hba] at hst
          by_cases hac : a < c
          · simp [hac]
          · by_cases hca : c < a
            · rw [if_neg hac, if_pos hca] at htu
              exact absurd htu (by simp)
            · have haceq : a = c := le_antisymm (not_lt.mp hca) (not_lt.mp hac)
              subst haceq
              rw [if_neg hac, if_neg hca] at htu ⊢
              exact ih bs cs hst htu

theorem strLt_connex : ∀ s t : Str, strLt s t = false → strLt t s = false → s = t := by
  intro s
  induction s with
  | nil =>
    intro t h1 _
    match t with
    | [] => rfl
    | _ :: _ => simp [strLt] at h1
  | cons a as ih =>
    intro t h1 h2
    match t with
    | [] => simp [strLt] at h2
    | b :: bs =>
      simp only [strLt] at h1 h2
      by_cases hab : a < b
      · rw [if_pos hab] at h1
        exact absurd h1 (by simp)
      · by_cases hba : b < a
        · rw [if_pos hba] at h2
          exact absurd h2 (by simp)
        · have habeq : a = b := le_antisymm (not_lt.mp hba) (not_lt.mp hab)
          subst habeq
          rw [if_neg hab, if_neg hba] at h1 h2
          rw [ih bs h1 h2]

theorem pyStrLE_total : ∀ a b : String, pyStrLE a b = true ∨ pyStrLE b a = true := by
  intro a b
  unfold pyStrLE
  cases h : strLt b.data a.data
  · exact Or.inl rfl
  · cases h2 : strLt a.data b.data
    · exact Or.inr rfl
    · have h3 := strLt_trans _ _ _ h h2
      rw [strLt_irrefl] at h3
      exact absurd h3 (by simp)

theorem pyStrLE_trans : ∀ a b c : String,
    pyStrLE a b = true → pyStrLE b c = true → pyStrLE a c = true := by
  intro a b c hab hbc
  unfold pyStrLE at hab hbc ⊢
  simp only [Bool.not_eq_true'] at hab hbc ⊢
  cases hca : strLt c.data a.data
  · rfl
  · exfalso
    cases hbc2 : strLt b.data c.data
    · have hdata : b.data = c.data := strLt_connex _ _ hbc2 hbc
      rw [← hdata] at hca
      rw [hca] at hab
      exact Bool.noConfusion hab
    · have h3 := strLt_trans _ _ _ hbc2 hca
      rw [h3] at hab
      exact Bool.noConfusion hab

/-- `_year_sort_key` comparison: the key is `(0, -int(y))` for a parseable
year and `(1, y)` otherwise; tuples compare lexicographically, so numeric
years come first (by descending value) and other keys after (by string
order).  This is the `le` of the ascending Python sort on those keys. -/
def yearKeyLE (a b : String) : Bool :=
  match pyInt a, pyInt b with
  | some x, some y => decide (-x ≤ -y)
  | some _, none => true
  | none, some _ => false
  | none, none => pyStrLE a b

/-- `sorted(grouped_by_year.keys(), key=_year_sort_key)`. -/
def sortedYears (ys : List String) : List String := pySorted yearKeyLE ys

/-- The ordering the claim describes: keys parseable as integers first,
by descending numeric value, then the non-numeric keys alphabetically
ascending (code-point lexicographic string order, as Python compares
strings). -/
def claimYearOrder (a b : String) : Prop :=
  match pyInt a, pyInt b with
  | some x, some y => y ≤ x
  | some _, none => True
  | none, some _ => False
  | none, none => pyStrLE a b = true

theorem yearKeyLE_total : ∀ a b, yearKeyLE a b = true ∨ yearKeyLE b a = true := by
  intro a b
  unfold yearKeyLE
  cases ha : pyInt a <;> cases hb : pyInt b
  · exact pyStrLE_total a b
  · exact Or.inr rfl
  · exact Or.inl rfl
  · rename_i x y
    rcases le_total (-x) (-y) with h | h
    · exact Or.inl (decide_eq_true h)
    · exact Or.inr (decide_eq_true h)

theorem yearKeyLE_trans : ∀ a b c, yearKeyLE a b = true → yearKeyLE b c = true →
    yearKeyLE a c = true := by
  intro a b c
  unfold yearKeyLE
  cases ha : pyInt a <;> cases hb : pyInt b <;> cases hc : pyInt c <;> intro hab hbc
  · exact pyStrLE_trans a b c hab hbc
  · exact Bool.noConfusion (show (false : Bool) = true from hbc)
  · exact Bool.noConfusion (show (false : Bool) = true from hab)
  · exact Bool.noConfusion (show (false : Bool) = true from hab)
  · rfl
  · exact Bool.noConfusion (show (false : Bool) = true from hbc)
  · rfl
  · rename_i x y z
    exact decide_eq_true (le_trans (of_decide_eq_true (show decide (-x ≤ -y) = true from hab))
      (of_decide_eq_true (show decide (-y ≤ -z) = true from hbc)))

theorem yearKeyLE_imp_claim : ∀ a b, yearKeyLE a b = true → claimYearOrder a b := by
  intro a b
  unfold yearKeyLE claimYearOrder
  cases ha : pyInt a <;> cases hb : pyInt b <;> intro h
  · exact h
  · exact absurd h (by simp)
  · trivial
  · exact neg_le_neg_iff.mp (of_decide_eq_true h)

/-! ### C4: ordering of the year-group keys -/

/-- C4: sorting the year-group keys with `_year_sort_key` permutes the keys
and orders them with all integer-parseable keys first, by descending
numeric value, followed by the non-numeric keys in ascending string order;
the spec example sorts to `2023, 2022, 2021, Undated`. -/
theorem year_group_key_order (ys : List String) :
    (sortedYears ys).Perm ys ∧
    (sortedYears ys).Pairwise claimYearOrder ∧
    sortedYears ["2021", "2023", "Undated", "2022"] = ["2023", "2022", "2021", "Undated"] := by
  refine ⟨pySorted_perm _ _, ?_, by decide⟩
  exact (pySorted_pairwise yearKeyLE_total yearKeyLE_trans ys).imp
    (fun h => yearKeyLE_imp_claim _ _ h)

/-- Witness for C4 at the spec's example key list. -/
theorem year_group_key_order_witness :
    sortedYears ["2021", "2023", "Undated", "2022"] = ["2023", "2022", "2021", "Undated"] :=
  (year_group_key_order []).2.2

end BibHtml
namespace BibHtml

/-! ### Grouping by year and the global numbering -/

/-- Line 126: the grouping key `entry.get('year', 'Undated')`. -/
def yearOf (e : Record) : String := pyGetD e "year" "Undated"

/-- Append `e` to the group keyed `k`, creating the group at the end when
the key is new — an insertion-ordered dict of lists, as
`defaultdict(list)` builds. -/
def addToGroup (gs : List (String × List Record)) (k : String) (e : Record) :
    List (String × List Record) :=
  match gs with
  | [] => [(k, [e])]
  | g :: rest => if g.1 = k then (g.1, g.2 ++ [e]) :: rest else g :: addToGroup rest k e

def groupByYear (entries : List Record) : List (String × List Record) :=
  entries.foldl (fun gs e => addToGroup gs (yearOf e) e) []

/-- Line 138: `total_pubs = sum(len(v) for v in grouped_by_year.values())`. -/
def totalPubs (entries : List Record) : Nat :=
  ((groupByYear entries).map (fun g => g.2.length)).sum

/-- Line 145: the per-year sort by the raw author field. -/
def authorLE (a b : Record) : Bool := pyStrLE (pyGetD a "author" "") (pyGetD b "author" "")

/-- The year groups in rendering order: sorted by `_year_sort_key` on the
keys.  Keys are unique, so sorting the pairs by key is the same as indexing
the dict by its sorted keys. -/
def sortedGroups (entries : List Record) : List (String × List Record) :=
  pySorted (fun g h => yearKeyLE g.1 h.1) (groupByYear entries)

def papersSorted (g : String × List Record) : List Record := pySorted authorLE g.2

/-- The group sizes in rendering order. -/
def groupSizes (entries : List Record) : List Nat :=
  (sortedGroups entries).map (fun g => (papersSorted g).length)

/-- The numbers a reversed ordered list starting at `start` assigns to `n`
items: `start, start-1, …`. -/
def descRun (start n : Nat) : List Nat := (List.range n).map (fun i => start - i)

/-- The `start` attributes of the emitted lists: the counter starts at the
total and drops by each group's size after the group. -/
def startsFrom : Nat → List Nat → List Nat
  | _, [] => []
  | cur, n :: ns => cur :: startsFrom (cur - n) ns

/-- Every item number emitted across the document, in document order. -/
def emitNumsFrom : Nat → List Nat → List Nat
  | _, [] => []
  | cur, n :: ns => descRun cur n ++ emitNumsFrom (cur - n) ns

def groupStarts (entries : List Record) : List Nat :=
  startsFrom (totalPubs entries) (groupSizes entries)

def emittedNumbers (entries : List Record) : List Nat :=
  emitNumsFrom (totalPubs entries) (groupSizes entries)

/-- The descending sequence `n, n-1, …, 1`. -/
def countdown : Nat → List Nat
  | 0 => []
  | n+1 => (n+1) :: countdown n

theorem addToGroup_sizes (gs : List (String × List Record)) (k : String) (e : Record) :
    ((addToGroup gs k e).map (fun g => g.2.length)).sum
      = (gs.map (fun g => g.2.length)).sum + 1 := by
  induction gs with
  | nil => simp [addToGroup]
  | cons g rest ih =>
    unfold addToGroup
    by_cases h : g.1 = k
    · rw [if_pos h]
      simp only [List.map_cons, List.sum_cons, List.length_append, List.length_cons,
        List.length_nil]
      omega
    · rw [if_neg h]
      simp only [List.map_cons, List.sum_cons, ih]
      omega

theorem totalPubs_eq_length (entries : List Record) : totalPubs entries = entries.length := by
  suffices h : ∀ (es : List Record) (gs : List (String × List Record)),
      ((es.foldl (fun acc e => addToGroup acc (yearOf e) e) gs).map
        (fun g => g.2.length)).sum
        = (gs.map (fun g => g.2.length)).sum + es.length by
    simpa using h entries []
  intro es
  induction es with
  | nil => intro gs; simp
  | cons e rest ih =>
    intro gs
    simp only [List.foldl_cons, List.length_cons]
    rw [ih (addToGroup gs (yearOf e) e), addToGroup_sizes]
    omega

theorem pySorted_length (le : α → α → Bool) (l : List α) :
    (pySorted le l).length = l.length :=
  (pySorted_perm le l).length_eq

theorem groupSizes_sum (entries : List Record) :
    (groupSizes entries).sum = totalPubs entries := by
  unfold groupSizes totalPubs sortedGroups
  rw [show (pySorted (fun g h => yearKeyLE g.1 h.1) (groupByYear entries)).map
        (fun g => (papersSorted g).length)
      = (pySorted (fun g h => yearKeyLE g.1 h.1) (groupByYear entries)).map
        (fun g => g.2.length) from
    List.map_congr_left fun g _ => pySorted_length authorLE g.2]
  exact ((pySorted_perm (fun g h => yearKeyLE g.1 h.1)
    (groupByYear entries)).map (fun g => g.2.length)).sum_eq

theorem descRun_append_countdown : ∀ n S : Nat,
    descRun (n + S) n ++ countdown S = countdown (n + S) := by
  intro n
  induction n with
  | zero => intro S; simp [descRun]
  | succ m ih =>
    intro S
    have h1 : descRun (m + 1 + S) (m + 1) = (m + 1 + S) :: descRun (m + S) m := by
      unfold descRun
      rw [List.range_succ_eq_map, List.map_cons, List.map_map, Nat.sub_zero]
      congr 1
      apply List.map_congr_left
      intro i _
      simp only [Function.comp_apply]
      omega
    rw [h1]
    show (m + 1 + S) :: (descRun (m + S) m ++ countdown S) = countdown (m + 1 + S)
    rw [ih S]
    have h2 : m + 1 + S = (m + S) + 1 := by omega
    rw [h2]
    rfl

theorem emitNums_countdown : ∀ ns : List Nat, emitNumsFrom ns.sum ns = countdown ns.sum := by
  intro ns
  induction ns with
  | nil => rfl
  | cons n rest ih =>
    show descRun (n :: rest).sum n ++ emitNumsFrom ((n :: rest).sum - n) rest
        = countdown (n :: rest).sum
    have hsum : (n :: rest).sum = n + rest.sum := by simp
    rw [hsum]
    have h2 : n + rest.sum - n = rest.sum := by omega
    rw [h2, ih]
    exact descRun_append_countdown n rest.sum

theorem countdown_count : ∀ n k : Nat,
    (countdown n).count k = if 1 ≤ k ∧ k ≤ n then 1 else 0 := by
  intro n
  induction n with
  | zero =>
    intro k
    show ([] : List Nat).count k = _
    rw [List.count_nil, if_neg (by omega)]
  | succ m ih =>
    intro k
    show ((m + 1) :: countdown m).count k = _
    simp only [List.count_cons, ih k, beq_iff_eq]
    split_ifs <;> omega

/-! ### C3: the global descending numbering -/

/-- C3: for every record collection, the emitted numbers across the whole
document — the counter starts at the total record count, each year group's
reversed list starts at the counter and numbers down, and the counter drops
by the group's size after the group — form exactly the descending sequence
total, …, 1, so every integer from 1 to the total is assigned exactly once
in year-descending then in-list order; in particular three records split
two in 2023 and one in 2022 give list starts 3 then 1 and numbers
`{3, 2, 1}`. -/
theorem global_numbering (entries : List Record) :
    emittedNumbers entries = countdown entries.length ∧
    (∀ k, (emittedNumbers entries).count k
        = if 1 ≤ k ∧ k ≤ entries.length then 1 else 0) ∧
    groupStarts [[("year", "2023"), ("title", "A")], [("year", "2023"), ("title", "B")],
      [("year", "2022"), ("title", "C")]] = [3, 1] ∧
    emittedNumbers [[("year", "2023"), ("title", "A")], [("year", "2023"), ("title", "B")],
      [("year", "2022"), ("title", "C")]] = [3, 2, 1] := by
  have h1 : emittedNumbers entries = countdown entries.length := by
    unfold emittedNumbers
    rw [show totalPubs entries = (groupSizes entries).sum from (groupSizes_sum entries).symm]
    rw [emitNums_countdown, groupSizes_sum, totalPubs_eq_length]
  refine ⟨h1, ?_, by decide, by decide⟩
  intro k
  rw [h1, countdown_count]

end BibHtml
namespace BibHtml

/-! ### The full rendering pass and the top-level run -/

/-- Lines 150–152: the escaped, normalized title with its fallback. -/
def titleOf (e : Record) : String :=
  (htmlEscape (latex_to_unicode (pyGetD e "title" "No title specified").data)).asString

/-- Lines 149–151: the formatted author list with its fallback. -/
def authorsOf (e : Record) : String :=
  (format_authors (pyGetD e "author" "No author specified").data).asString

/-- Lines 174–178: the title wrapped in an anchor when a link URL was
resolved, in a plain span otherwise. -/
def titleHtml (e : Record) : String :=
  match resolveLink e with
  | some u =>
    "<a class=\"pub-title\" href=\"" ++ (htmlEscape u.data).asString
      ++ "\" target=\"_blank\" rel=\"noopener noreferrer\">" ++ titleOf e ++ "</a>"
  | none => "<span class=\"pub-title\">" ++ titleOf e ++ "</span>"

/-- Line 190: one list item. -/
def liOf (e : Record) : String :=
  "<li>" ++ titleHtml e ++ "<div class=\"pub-authors\">" ++ authorsOf e
    ++ "</div><div class=\"pub-venue\">" ++ venueOf e ++ "</div></li>"

/-- Lines 140–193: one heading and one reversed ordered list per year
group, with the running counter as each list's start. -/
def renderGroups : Nat → List (String × List Record) → List String
  | _, [] => []
  | cur, g :: gs =>
    ("<h3 class=\"year-header\">" ++ g.1 ++ "</h3>")
      :: ("<ol class=\"publication-list\" reversed start=\"" ++ toString cur ++ "\">")
      :: ((papersSorted g).map liOf ++ ["</ol>"])
      ++ renderGroups (cur - g.2.length) gs

/-- Line 196: the newline-joined generated fragment. -/
def generatedContent (entries : List Record) : String :=
  String.intercalate "\n" (renderGroups (totalPubs entries) (sortedGroups entries))

def PLACEHOLDER : String := "PLACEHOLDER"

def OUTPUT_FILE : String := "publications.html"

/-- The effects of one run: the outcome of reading-and-parsing the
bibliography, the outcome of reading the template, and whether the final
write would fail.  All pure transformation in between is total. -/
structure Env where
  bibResult : Except String (List Record)
  templateResult : Except String String
  writeError : Option String

/-- What a run leaves behind: the content written to the output file (or
`none` when nothing was written) and the message printed to the operator. -/
structure Outcome where
  written : Option String
  message : String

def errMsg (ex : String) : String := "❌ An unexpected error occurred: " ++ ex

def successMsg : String :=
  "✅ Success! " ++ String.singleton apos ++ OUTPUT_FILE ++ String.singleton apos
    ++ " has been updated."

/-- Lines 119–205: the whole `main` inside one `try/except`.  Reading and
parsing the bibliography, rendering, reading the template and substituting
the placeholder all happen before the single write of the output file; any
failure jumps to the `except` handler, which prints the error message, so
nothing is written. -/
def mainRun (env : Env) : Outcome :=
  match env.bibResult with
  | .error ex => ⟨none, errMsg ex⟩
  | .ok entries =>
    match env.templateResult with
    | .error ex => ⟨none, errMsg ex⟩
    | .ok tmpl =>
      let out := (replaceAll PLACEHOLDER.data (generatedContent entries).data tmpl.data).asString
      match env.writeError with
      | some ex => ⟨none, errMsg ex⟩
      | none => ⟨some out, successMsg⟩

/-- Some stage of the run fails. -/
def stageFailed (env : Env) : Prop :=
  (∃ ex, env.bibResult = .error ex) ∨ (∃ ex, env.templateResult = .error ex) ∨
    env.writeError.isSome = true

/-! ### C9: single catch-all error boundary, no partial output -/

/-- C9: every failure in any stage of the run is caught by the single
boundary: the outcome carries the operator-readable error message and
nothing is written to the output destination; when no stage fails, the
written file is exactly the template with the placeholder replaced by the
fully in-memory generated content, written in one step. -/
theorem mainRun_error_boundary (env : Env) :
    (stageFailed env → (mainRun env).written = none ∧
      ∃ ex, (mainRun env).message = errMsg ex) ∧
    (¬ stageFailed env → ∃ entries tmpl,
      env.bibResult = .ok entries ∧ env.templateResult = .ok tmpl ∧
      mainRun env = ⟨some ((replaceAll PLACEHOLDER.data
        (generatedContent entries).data tmpl.data).asString), successMsg⟩) := by
  obtain ⟨bib, tmplR, werr⟩ := env
  constructor
  · intro hfail
    match bib with
    | .error ex => exact ⟨rfl, ex, rfl⟩
    | .ok entries =>
      match tmplR with
      | .error ex => exact ⟨rfl, ex, rfl⟩
      | .ok tmpl =>
        match werr with
        | some ex => exact ⟨rfl, ex, rfl⟩
        | none =>
          exfalso
          rcases hfail with ⟨ex, hx⟩ | ⟨ex, hx⟩ | hx
          · exact Except.noConfusion hx
          · exact Except.noConfusion hx
          · exact Bool.noConfusion (show (false : Bool) = true from hx)
  · intro hok
    match bib with
    | .error ex => exact absurd (Or.inl ⟨ex, rfl⟩) hok
    | .ok entries =>
      match tmplR with
      | .error ex => exact absurd (Or.inr (Or.inl ⟨ex, rfl⟩)) hok
      | .ok tmpl =>
        match werr with
        | some ex => exact absurd (Or.inr (Or.inr rfl)) hok
        | none => exact ⟨entries, tmpl, rfl, rfl, rfl⟩

/-- Witness for C9: a failing bibliography read writes nothing and reports
the error; a clean run on an empty bibliography writes the template with
the placeholder replaced (here by the empty fragment). -/
theorem mainRun_error_boundary_witness :
    (mainRun ⟨.error "boom", .ok "<p>PLACEHOLDER</p>", none⟩).written = none ∧
    (mainRun ⟨.ok [], .ok "<p>PLACEHOLDER</p>", none⟩).written = some "<p></p>" := by
  constructor
  · exact ((mainRun_error_boundary ⟨.error "boom", .ok "<p>PLACEHOLDER</p>", none⟩).1
      (Or.inl ⟨"boom", rfl⟩)).1
  · obtain ⟨entries, tmpl, h1, h2, h3⟩ :=
      (mainRun_error_boundary ⟨.ok [], .ok "<p>PLACEHOLDER</p>", none⟩).2
      (by rintro (⟨ex, hx⟩ | ⟨ex, hx⟩ | hx) <;> simp at hx)
    injection h1 with h1e
    injection h2 with h2e
    subst h1e
    subst h2e
    rw [h3]
    decide

end BibHtml
